import Mathlib

/-!
Metropolis control plane: node entity model and consensus membership.

A shallow embedding of

* `metropolis/node/core/curator/state_node.go` (`Node`, `proto`,
  `nodeUnmarshal`, `nodeLoad`, `nodeSave`), and
* `metropolis/node/core/consensus/status.go` (`Status.AddNode`).

Go values are embedded as follows.

* `[]byte` is `List Nat`; a nil slice and an empty slice are the same value.
* A pointer that the code tests against nil is an `Option`.
* A Go result pair `(*T, error)` is a pair `Option T × Option GoError`.
* A run that ends in a nil-pointer or index panic is `Outcome.panicked`.
* Functions of libraries outside the repository (protobuf, crypto/x509, the
  etcd client, gRPC status) and functions of the repository whose source is
  not part of the verified files are fields of an environment structure.
* Stateful collaborators are functions on an explicit store state; every
  interaction of `AddNode` with a collaborator is recorded, with its answer,
  in an event log.
-/

namespace Metropolis

/-! ## Go runtime values -/

/-- Byte slices. -/
abbrev Bytes := List Nat

/-- The gRPC status codes of `google.golang.org/grpc/codes`. -/
inductive Code
  | OK | Canceled | Unknown | InvalidArgument | DeadlineExceeded | NotFound
  | AlreadyExists | PermissionDenied | ResourceExhausted | FailedPrecondition
  | Aborted | OutOfRange | Unimplemented | Internal | Unavailable | DataLoss
  | Unauthenticated
deriving DecidableEq, Repr

/-- The name printed for a status code by `Code.String`. -/
def Code.String : Code → String
  | .OK => "OK"
  | .Canceled => "Canceled"
  | .Unknown => "Unknown"
  | .InvalidArgument => "InvalidArgument"
  | .DeadlineExceeded => "DeadlineExceeded"
  | .NotFound => "NotFound"
  | .AlreadyExists => "AlreadyExists"
  | .PermissionDenied => "PermissionDenied"
  | .ResourceExhausted => "ResourceExhausted"
  | .FailedPrecondition => "FailedPrecondition"
  | .Aborted => "Aborted"
  | .OutOfRange => "OutOfRange"
  | .Unimplemented => "Unimplemented"
  | .Internal => "Internal"
  | .Unavailable => "Unavailable"
  | .DataLoss => "DataLoss"
  | .Unauthenticated => "Unauthenticated"

/-- Go `error` values as this package builds and inspects them:
an error with a fixed text (`errors.New`, or any library error), a gRPC
status (`status.Error`, `status.Errorf`), and an error wrapped by
`fmt.Errorf(pfx + "%w", inner)`. -/
inductive GoError
  | errorString (text : String)
  | status (code : Code) (msg : String)
  | wrapped (pfx : String) (inner : GoError)
deriving DecidableEq, Repr

/-- The `Error()` text of an error, which is what `%v` prints. -/
def GoError.Error : GoError → String
  | .errorString text => text
  | .status code msg => "rpc error: code = " ++ code.String ++ " desc = " ++ msg
  | .wrapped pfx inner => pfx ++ inner.Error

/-- `status.Code(err)` for an error built by this package: the code of a
status, `Unknown` for an error that is not a status. -/
def GoError.code : GoError → Code
  | .status code _ => code
  | _ => .Unknown

/-- `status.Convert(err).Message()`: the message of a status, the error text
for an error that is not a status. -/
def GoError.message : GoError → String
  | .status _ msg => msg
  | e => e.Error

deriving instance DecidableEq for Except

/-- The result of running a Go function that may panic. -/
inductive Outcome (α : Type)
  | returned (a : α)
  | panicked
deriving DecidableEq, Repr

/-! ## External value types -/

/-- An `x509.Certificate`. This package reads only `Raw`, the complete DER
encoding; all parsed fields are carried uninterpreted in `Fields`. -/
structure Certificate where
  Raw : Bytes
  Fields : List Nat
deriving DecidableEq, Repr

/-- A `pkix.CertificateList`, the parsed form of a CRL, carried
uninterpreted. -/
structure CertificateList where
  Entries : List Nat
deriving DecidableEq, Repr

/-- A `pki.CRL`: the raw bytes of a CRL and its parsed list. -/
structure CRL where
  Raw : Bytes
  List : CertificateList
deriving DecidableEq, Repr

/-- Modelled from the spec: the `cpb.NodeState` enumeration is declared
outside the verified files; the spec names the lifecycle states NEW, UP and
DECOMMISSIONED. -/
inductive NodeState
  | NODE_STATE_NEW
  | NODE_STATE_UP
  | NODE_STATE_DECOMMISSIONED
deriving DecidableEq, Repr

/-- Modelled from the spec: the `cpb.NodeStatus` message is declared outside
the verified files; the spec describes it as the last-reported liveness and
network information. This package only stores and returns it. -/
structure NodeStatus where
  payload : Bytes
deriving DecidableEq, Repr

/-! ## The stored protobuf message `ppb.Node` -/

/-- A `cpb.NodeRoles_ConsensusMember_Peer`. -/
structure PbPeer where
  Name : String
  URL : String
deriving DecidableEq, Repr

/-- A `cpb.NodeRoles_ConsensusMember`. -/
structure PbConsensusMember where
  CaCertificate : Bytes
  PeerCertificate : Bytes
  InitialCrl : Bytes
  Peers : List PbPeer
deriving DecidableEq, Repr

/-- A `cpb.NodeRoles_KubernetesWorker`, an empty message. -/
structure PbKubernetesWorker where
deriving DecidableEq, Repr

/-- A `cpb.NodeRoles`; both sub-messages are optional. -/
structure PbNodeRoles where
  KubernetesWorker : Option PbKubernetesWorker
  ConsensusMember : Option PbConsensusMember
deriving DecidableEq, Repr

/-- A `ppb.Node`. `Roles` and `Status` are message pointers and may be nil. -/
structure PbNode where
  ClusterUnlockKey : Bytes
  PublicKey : Bytes
  FsmState : NodeState
  Roles : Option PbNodeRoles
  Status : Option NodeStatus
deriving DecidableEq, Repr

/-! ## The node entity (`state_node.go`) -/

/-- The `NodeRoleKubernetesWorker` struct, which has no fields. -/
structure NodeRoleKubernetesWorker where
deriving DecidableEq, Repr

/-- The `NodeRoleConsensusMemberPeer` struct. -/
structure NodeRoleConsensusMemberPeer where
  Name : String
  URL : String
deriving DecidableEq, Repr

/-- The `NodeRoleConsensusMember` struct. -/
structure NodeRoleConsensusMember where
  CACertificate : Certificate
  PeerCertificate : Certificate
  CRL : CRL
  Peers : List NodeRoleConsensusMemberPeer
deriving DecidableEq, Repr

/-- The `Node` struct. A role pointer that is nil is `none`. -/
structure Node where
  clusterUnlockKey : Bytes
  pubkey : Bytes
  state : NodeState
  status : Option NodeStatus
  kubernetesWorker : Option NodeRoleKubernetesWorker
  consensusMember : Option NodeRoleConsensusMember
deriving DecidableEq, Repr

/-- The functions `state_node.go` calls that are defined outside the verified
files: `identity.NodeID`, `proto.Marshal`, `proto.Unmarshal`,
`x509.ParseCertificate`, `x509.ParseCRL`, the `Key` method of
`nodeEtcdPrefix`, and `rpcError` (which answers `some e` when it converts the
error to an RPC status and `none` when it reports `false`). -/
structure Deps where
  NodeID : Bytes → String
  protoMarshal : PbNode → Except GoError Bytes
  protoUnmarshal : Bytes → Except GoError PbNode
  ParseCertificate : Bytes → Except GoError Certificate
  ParseCRL : Bytes → Except GoError CertificateList
  nodeEtcdPrefixKey : String → Except GoError String
  rpcError : GoError → Option GoError

/-- The method `Node.ID`. -/
def Node.ID (d : Deps) (n : Node) : String :=
  d.NodeID n.pubkey

/-- The method `Node.proto`: the message always carries a non-nil `Roles`. -/
def Node.proto (n : Node) : PbNode :=
  let roles : PbNodeRoles :=
    { KubernetesWorker := none, ConsensusMember := none }
  let roles :=
    match n.kubernetesWorker with
    | some _ => { roles with KubernetesWorker := some {} }
    | none => roles
  let roles :=
    match n.consensusMember with
    | some cm =>
      { roles with
        ConsensusMember := some
          { CaCertificate := cm.CACertificate.Raw
            PeerCertificate := cm.PeerCertificate.Raw
            InitialCrl := cm.CRL.Raw
            Peers := cm.Peers.map (fun p => { Name := p.Name, URL := p.URL }) } }
    | none => roles
  { ClusterUnlockKey := n.clusterUnlockKey
    PublicKey := n.pubkey
    FsmState := n.state
    Roles := some roles
    Status := n.status }

/-- The peer loop of `nodeUnmarshal`: append one peer per message peer. -/
def unmarshalPeers (ps : List PbPeer) : List NodeRoleConsensusMemberPeer :=
  ps.foldl (fun acc p => acc ++ [{ Name := p.Name, URL := p.URL }]) []

/-- The function `nodeUnmarshal`. Reading `msg.Roles.KubernetesWorker` when
`msg.Roles` is nil is a nil-pointer dereference. -/
def nodeUnmarshal (d : Deps) (data : Bytes) :
    Outcome (Option Node × Option GoError) :=
  match d.protoUnmarshal data with
  | .error err =>
    .returned (none, some (.wrapped "could not unmarshal proto: " err))
  | .ok msg =>
    let n : Node :=
      { clusterUnlockKey := msg.ClusterUnlockKey
        pubkey := msg.PublicKey
        state := msg.FsmState
        status := msg.Status
        kubernetesWorker := none
        consensusMember := none }
    match msg.Roles with
    | none => .panicked
    | some roles =>
      let n :=
        match roles.KubernetesWorker with
        | some _ => { n with kubernetesWorker := some {} }
        | none => n
      match roles.ConsensusMember with
      | none => .returned (some n, none)
      | some cm =>
        match d.ParseCertificate cm.CaCertificate with
        | .error err =>
          .returned (none, some (.wrapped "could not unmarshal consensus ca certificate: " err))
        | .ok caCert =>
          match d.ParseCertificate cm.PeerCertificate with
          | .error err =>
            .returned (none, some (.wrapped "could not unmarshal consensus peer certificate: " err))
          | .ok peerCert =>
            match d.ParseCRL cm.InitialCrl with
            | .error err =>
              .returned (none, some (.wrapped "could not unmarshal consensus crl: " err))
            | .ok crl =>
              .returned
                (some { n with
                    consensusMember := some
                      { CACertificate := caCert
                        PeerCertificate := peerCert
                        CRL := { Raw := cm.InitialCrl, List := crl }
                        Peers := unmarshalPeers cm.Peers } },
                  none)

/-! ## Consensus membership (`status.go`) -/

/-- An etcd cluster member as `MemberList` reports it. -/
structure Member where
  ID : Nat
  Name : String
  PeerURLs : List String
  IsLearner : Bool
deriving DecidableEq, Repr

/-- The `ExistingNode` struct: name and peer URL of an already running member. -/
structure ExistingNode where
  Name : String
  URL : String
deriving DecidableEq, Repr

/-- The `JoinCluster` bundle returned by `AddNode`. -/
structure JoinCluster where
  CACertificate : Certificate
  NodeCertificate : Certificate
  ExistingNodes : List ExistingNode
  InitialCRL : CRL
deriving DecidableEq, Repr

/-- The `AddNodeOption` struct. -/
structure AddNodeOption where
  externalAddress : String
  externalPort : Int
deriving DecidableEq, Repr

/-- One interaction of `AddNode` with a collaborator, with its arguments and
its answer. -/
inductive Event
  | pkiClient (r : Option GoError)
  | ensureCA (r : Except GoError Bytes)
  | ensureMember (name : String) (pk : Bytes) (extraNames : List String)
      (r : Except GoError Bytes)
  | MemberList (r : Except GoError (List Member))
  | crlGet (r : Except GoError CRL)
  | MemberAddAsLearner (urls : List String) (r : Except GoError Member)
deriving DecidableEq

/-- The collaborators of `AddNode`, over a store state `σ`:
`identity.NodeID`, the constant `node.ConsensusPort`, `Status.pkiClient`,
`Ensure` on the CA certificate, `Ensure` on a member certificate with the
given name, public key and extra names, `x509.ParseCertificate`, the etcd
calls `MemberList` and `MemberAddAsLearner`, and `Get` on the CRL watcher. -/
structure ConsensusEnv (σ : Type) where
  NodeID : Bytes → String
  ConsensusPort : Nat
  pkiClient : Option GoError
  ensureCA : σ → Except GoError Bytes × σ
  ensureMember : String → Bytes → List String → σ → Except GoError Bytes × σ
  ParseCertificate : Bytes → Except GoError Certificate
  MemberList : σ → Except GoError (List Member) × σ
  crlGet : σ → Except GoError CRL × σ
  MemberAddAsLearner : List String → σ → Except GoError Member × σ

/-- Go `strconv.Itoa`: the decimal text of an int. -/
def Itoa (i : Int) : String :=
  toString i

/-- Go `net.JoinHostPort`: `host:port`, with the host in square brackets when
it contains a colon. -/
def JoinHostPort (host port : String) : String :=
  if ':' ∈ host.data then "[" ++ host ++ "]:" ++ port else host ++ ":" ++ port

/-- The values the option loop of `AddNode` computes. -/
structure AddNodeNames where
  name : String
  extraNames : List String
  port : Int
deriving DecidableEq, Repr

/-- One iteration of the option loop of `AddNode`. -/
def applyOption (acc : AddNodeNames) (opt : AddNodeOption) : AddNodeNames :=
  let acc :=
    if opt.externalAddress ≠ "" then
      { acc with name := opt.externalAddress,
                 extraNames := acc.extraNames ++ [opt.externalAddress] }
    else acc
  if opt.externalPort ≠ 0 then { acc with port := opt.externalPort } else acc

/-- The option loop of `AddNode`, starting from the node ID and the default
consensus port. -/
def applyOptions (nodeID : String) (defaultPort : Int) (opts : List AddNodeOption) :
    AddNodeNames :=
  opts.foldl applyOption { name := nodeID, extraNames := [], port := defaultPort }

/-- The peer URL `AddNode` builds for the new member:
`fmt.Sprintf("https://%s", net.JoinHostPort(name, strconv.Itoa(port)))`. -/
def learnerURL (o : AddNodeNames) : String :=
  "https://" ++ JoinHostPort o.name (Itoa o.port)

/-- The values the member loop of `AddNode` computes. -/
structure MemberScan where
  existingNodes : List ExistingNode
  newExists : Bool
deriving DecidableEq, Repr

/-- One iteration of the member loop of `AddNode`. -/
def scanStep (nodeID : String) (acc : MemberScan) (m : Member) : MemberScan :=
  let acc := if m.Name = nodeID then { acc with newExists := true } else acc
  if m.IsLearner then acc
  else
    match m.PeerURLs with
    | [] => acc
    | url :: _ => { acc with existingNodes := acc.existingNodes ++ [{ Name := m.Name, URL := url }] }

/-- The member loop of `AddNode`. -/
def scanMembers (nodeID : String) (members : List Member) : MemberScan :=
  members.foldl (scanStep nodeID) { existingNodes := [], newExists := false }

/-- The result of one `AddNode` call: the returned pair, the store state
after the call, and the log of interactions in call order. -/
structure AddNodeRun (σ : Type) where
  jc : Option JoinCluster
  err : Option GoError
  store : σ
  events : List Event

/-- The method `Status.AddNode`. -/
def AddNode {σ : Type} (env : ConsensusEnv σ) (pk : Bytes) (opts : List AddNodeOption)
    (s : σ) : AddNodeRun σ :=
  match env.pkiClient with
  | some err => ⟨none, some err, s, [.pkiClient (some err)]⟩
  | none =>
  let nodeID := env.NodeID pk
  let o := applyOptions nodeID (env.ConsensusPort : Int) opts
  match env.ensureCA s with
  | (.error err, s1) =>
    ⟨none, some (.wrapped "could not ensure CA certificate: " err), s1,
      [.pkiClient none, .ensureCA (.error err)]⟩
  | (.ok caBytes, s1) =>
  match env.ensureMember nodeID pk o.extraNames s1 with
  | (.error err, s2) =>
    ⟨none, some (.wrapped "could not ensure member certificate: " err), s2,
      [.pkiClient none, .ensureCA (.ok caBytes),
       .ensureMember nodeID pk o.extraNames (.error err)]⟩
  | (.ok memberBytes, s2) =>
  let ev2 : List Event :=
    [.pkiClient none, .ensureCA (.ok caBytes),
     .ensureMember nodeID pk o.extraNames (.ok memberBytes)]
  match env.ParseCertificate caBytes with
  | .error err =>
    ⟨none, some (.wrapped "could not parse CA certificate: " err), s2, ev2⟩
  | .ok caCert =>
  match env.ParseCertificate memberBytes with
  | .error err =>
    ⟨none, some (.wrapped "could not parse newly issued member certificate: " err), s2, ev2⟩
  | .ok memberCert =>
  match env.MemberList s2 with
  | (.error err, s3) =>
    ⟨none, some (.wrapped "could not retrieve existing members: " err), s3,
      ev2 ++ [.MemberList (.error err)]⟩
  | (.ok members, s3) =>
  let scan := scanMembers nodeID members
  match env.crlGet s3 with
  | (.error err, s4) =>
    ⟨none, some (.wrapped "could not retrieve initial CRL: " err), s4,
      ev2 ++ [.MemberList (.ok members), .crlGet (.error err)]⟩
  | (.ok crl, s4) =>
  let ev4 : List Event := ev2 ++ [.MemberList (.ok members), .crlGet (.ok crl)]
  let jc : JoinCluster :=
    { CACertificate := caCert
      NodeCertificate := memberCert
      ExistingNodes := scan.existingNodes
      InitialCRL := crl }
  if scan.newExists then ⟨some jc, none, s4, ev4⟩
  else
    let addr := learnerURL o
    match env.MemberAddAsLearner [addr] s4 with
    | (.error err, s5) =>
      ⟨none, some (.wrapped "could not add new member as learner: " err), s5,
        ev4 ++ [.MemberAddAsLearner [addr] (.error err)]⟩
    | (.ok added, s5) =>
      ⟨some jc, none, s5, ev4 ++ [.MemberAddAsLearner [addr] (.ok added)]⟩

/-- The members `AddNode` is to report as existing nodes: those that are not
learners and have a peer URL, each with its name and first peer URL. -/
def votingPeers (members : List Member) : List ExistingNode :=
  (members.filter (fun m => !m.IsLearner && !m.PeerURLs.isEmpty)).map
    (fun m => { Name := m.Name, URL := m.PeerURLs.headD "" })

/-- The paths of `AddNode`: one per failing step, the path that finds the
node among the listed members, and the path that adds it as a learner. Each
path fixes the returned pair, the final store and the log. -/
inductive AddNodePath {σ : Type} (env : ConsensusEnv σ) (pk : Bytes)
    (opts : List AddNodeOption) (s : σ) : AddNodeRun σ → Prop
  | pkiClientFailed (err : GoError) (h0 : env.pkiClient = some err) :
      AddNodePath env pk opts s ⟨none, some err, s, [.pkiClient (some err)]⟩
  | ensureCAFailed (err : GoError) (s1 : σ)
      (h0 : env.pkiClient = none) (h1 : env.ensureCA s = (.error err, s1)) :
      AddNodePath env pk opts s
        ⟨none, some (.wrapped "could not ensure CA certificate: " err), s1,
          [.pkiClient none, .ensureCA (.error err)]⟩
  | ensureMemberFailed (caBytes : Bytes) (s1 : σ) (err : GoError) (s2 : σ)
      (h0 : env.pkiClient = none) (h1 : env.ensureCA s = (.ok caBytes, s1))
      (h2 : env.ensureMember (env.NodeID pk) pk
        (applyOptions (env.NodeID pk) env.ConsensusPort opts).extraNames s1 = (.error err, s2)) :
      AddNodePath env pk opts s
        ⟨none, some (.wrapped "could not ensure member certificate: " err), s2,
          [.pkiClient none, .ensureCA (.ok caBytes),
           .ensureMember (env.NodeID pk) pk
             (applyOptions (env.NodeID pk) env.ConsensusPort opts).extraNames (.error err)]⟩
  | parseCAFailed (caBytes : Bytes) (s1 : σ) (memberBytes : Bytes) (s2 : σ) (err : GoError)
      (h0 : env.pkiClient = none) (h1 : env.ensureCA s = (.ok caBytes, s1))
      (h2 : env.ensureMember (env.NodeID pk) pk
        (applyOptions (env.NodeID pk) env.ConsensusPort opts).extraNames s1
          = (.ok memberBytes, s2))
      (h3 : env.ParseCertificate caBytes = .error err) :
      AddNodePath env pk opts s
        ⟨none, some (.wrapped "could not parse CA certificate: " err), s2,
          [.pkiClient none, .ensureCA (.ok caBytes),
           .ensureMember (env.NodeID pk) pk
             (applyOptions (env.NodeID pk) env.ConsensusPort opts).extraNames
             (.ok memberBytes)]⟩
  | parseMemberFailed (caBytes : Bytes) (s1 : σ) (memberBytes : Bytes) (s2 : σ)
      (caCert : Certificate) (err : GoError)
      (h0 : env.pkiClient = none) (h1 : env.ensureCA s = (.ok caBytes, s1))
      (h2 : env.ensureMember (env.NodeID pk) pk
        (applyOptions (env.NodeID pk) env.ConsensusPort opts).extraNames s1
          = (.ok memberBytes, s2))
      (h3 : env.ParseCertificate caBytes = .ok caCert)
      (h4 : env.ParseCertificate memberBytes = .error err) :
      AddNodePath env pk opts s
        ⟨none, some (.wrapped "could not parse newly issued member certificate: " err), s2,
          [.pkiClient none, .ensureCA (.ok caBytes),
           .ensureMember (env.NodeID pk) pk
             (applyOptions (env.NodeID pk) env.ConsensusPort opts).extraNames
             (.ok memberBytes)]⟩
  | memberListFailed (caBytes : Bytes) (s1 : σ) (memberBytes : Bytes) (s2 : σ)
      (caCert memberCert : Certificate) (err : GoError) (s3 : σ)
      (h0 : env.pkiClient = none) (h1 : env.ensureCA s = (.ok caBytes, s1))
      (h2 : env.ensureMember (env.NodeID pk) pk
        (applyOptions (env.NodeID pk) env.ConsensusPort opts).extraNames s1
          = (.ok memberBytes, s2))
      (h3 : env.ParseCertificate caBytes = .ok caCert)
      (h4 : env.ParseCertificate memberBytes = .ok memberCert)
      (h5 : env.MemberList s2 = (.error err, s3)) :
      AddNodePath env pk opts s
        ⟨none, some (.wrapped "could not retrieve existing members: " err), s3,
          [.pkiClient none, .ensureCA (.ok caBytes),
           .ensureMember (env.NodeID pk) pk
             (applyOptions (env.NodeID pk) env.ConsensusPort opts).extraNames
             (.ok memberBytes),
           .MemberList (.error err)]⟩
  | crlFailed (caBytes : Bytes) (s1 : σ) (memberBytes : Bytes) (s2 : σ)
      (caCert memberCert : Certificate) (members : List Member) (s3 : σ)
      (err : GoError) (s4 : σ)
      (h0 : env.pkiClient = none) (h1 : env.ensureCA s = (.ok caBytes, s1))
      (h2 : env.ensureMember (env.NodeID pk) pk
        (applyOptions (env.NodeID pk) env.ConsensusPort opts).extraNames s1
          = (.ok memberBytes, s2))
      (h3 : env.ParseCertificate caBytes = .ok caCert)
      (h4 : env.ParseCertificate memberBytes = .ok memberCert)
      (h5 : env.MemberList s2 = (.ok members, s3))
      (h6 : env.crlGet s3 = (.error err, s4)) :
      AddNodePath env pk opts s
        ⟨none, some (.wrapped "could not retrieve initial CRL: " err), s4,
          [.pkiClient none, .ensureCA (.ok caBytes),
           .ensureMember (env.NodeID pk) pk
             (applyOptions (env.NodeID pk) env.ConsensusPort opts).extraNames
             (.ok memberBytes),
           .MemberList (.ok members), .crlGet (.error err)]⟩
  | alreadyMember (caBytes : Bytes) (s1 : σ) (memberBytes : Bytes) (s2 : σ)
      (caCert memberCert : Certificate) (members : List Member) (s3 : σ)
      (crl : CRL) (s4 : σ)
      (h0 : env.pkiClient = none) (h1 : env.ensureCA s = (.ok caBytes, s1))
      (h2 : env.ensureMember (env.NodeID pk) pk
        (applyOptions (env.NodeID pk) env.ConsensusPort opts).extraNames s1
          = (.ok memberBytes, s2))
      (h3 : env.ParseCertificate caBytes = .ok caCert)
      (h4 : env.ParseCertificate memberBytes = .ok memberCert)
      (h5 : env.MemberList s2 = (.ok members, s3))
      (h6 : env.crlGet s3 = (.ok crl, s4))
      (h7 : (scanMembers (env.NodeID pk) members).newExists = true) :
      AddNodePath env pk opts s
        ⟨some ⟨caCert, memberCert, (scanMembers (env.NodeID pk) members).existingNodes, crl⟩,
          none, s4,
          [.pkiClient none, .ensureCA (.ok caBytes),
           .ensureMember (env.NodeID pk) pk
             (applyOptions (env.NodeID pk) env.ConsensusPort opts).extraNames
             (.ok memberBytes),
           .MemberList (.ok members), .crlGet (.ok crl)]⟩
  | addFailed (caBytes : Bytes) (s1 : σ) (memberBytes : Bytes) (s2 : σ)
      (caCert memberCert : Certificate) (members : List Member) (s3 : σ)
      (crl : CRL) (s4 : σ) (err : GoError) (s5 : σ)
      (h0 : env.pkiClient = none) (h1 : env.ensureCA s = (.ok caBytes, s1))
      (h2 : env.ensureMember (env.NodeID pk) pk
        (applyOptions (env.NodeID pk) env.ConsensusPort opts).extraNames s1
          = (.ok memberBytes, s2))
      (h3 : env.ParseCertificate caBytes = .ok caCert)
      (h4 : env.ParseCertificate memberBytes = .ok memberCert)
      (h5 : env.MemberList s2 = (.ok members, s3))
      (h6 : env.crlGet s3 = (.ok crl, s4))
      (h7 : (scanMembers (env.NodeID pk) members).newExists = false)
      (h8 : env.MemberAddAsLearner
        [learnerURL (applyOptions (env.NodeID pk) env.ConsensusPort opts)] s4
          = (.error err, s5)) :
      AddNodePath env pk opts s
        ⟨none, some (.wrapped "could not add new member as learner: " err), s5,
          [.pkiClient none, .ensureCA (.ok caBytes),
           .ensureMember (env.NodeID pk) pk
             (applyOptions (env.NodeID pk) env.ConsensusPort opts).extraNames
             (.ok memberBytes),
           .MemberList (.ok members), .crlGet (.ok crl),
           .MemberAddAsLearner
             [learnerURL (applyOptions (env.NodeID pk) env.ConsensusPort opts)]
             (.error err)]⟩
  | added (caBytes : Bytes) (s1 : σ) (memberBytes : Bytes) (s2 : σ)
      (caCert memberCert : Certificate) (members : List Member) (s3 : σ)
      (crl : CRL) (s4 : σ) (learner : Member) (s5 : σ)
      (h0 : env.pkiClient = none) (h1 : env.ensureCA s = (.ok caBytes, s1))
      (h2 : env.ensureMember (env.NodeID pk) pk
        (applyOptions (env.NodeID pk) env.ConsensusPort opts).extraNames s1
          = (.ok memberBytes, s2))
      (h3 : env.ParseCertificate caBytes = .ok caCert)
      (h4 : env.ParseCertificate memberBytes = .ok memberCert)
      (h5 : env.MemberList s2 = (.ok members, s3))
      (h6 : env.crlGet s3 = (.ok crl, s4))
      (h7 : (scanMembers (env.NodeID pk) members).newExists = false)
      (h8 : env.MemberAddAsLearner
        [learnerURL (applyOptions (env.NodeID pk) env.ConsensusPort opts)] s4
          = (.ok learner, s5)) :
      AddNodePath env pk opts s
        ⟨some ⟨caCert, memberCert, (scanMembers (env.NodeID pk) members).existingNodes, crl⟩,
          none, s5,
          [.pkiClient none, .ensureCA (.ok caBytes),
           .ensureMember (env.NodeID pk) pk
             (applyOptions (env.NodeID pk) env.ConsensusPort opts).extraNames
             (.ok memberBytes),
           .MemberList (.ok members), .crlGet (.ok crl),
           .MemberAddAsLearner
             [learnerURL (applyOptions (env.NodeID pk) env.ConsensusPort opts)]
             (.ok learner)]⟩

/-- Whether a logged interaction is a call of `MemberAddAsLearner`. -/
def Event.isMemberAddAsLearner : Event → Bool
  | .MemberAddAsLearner _ _ => true
  | _ => false

/-- The number of `MemberAddAsLearner` calls in a log. -/
def learnerAdds (events : List Event) : Nat :=
  (events.filter Event.isMemberAddAsLearner).length

/-- The name an `AddNode` call is to use for the new member: the node ID
unless an option supplies a non-empty external address, then that address
(the last one, when several options supply one). -/
def effectiveName (nodeID : String) (opts : List AddNodeOption) : String :=
  match opts.reverse.find? (fun o => o.externalAddress ≠ "") with
  | some o => o.externalAddress
  | none => nodeID

/-- The port an `AddNode` call is to use for the new member: the default
consensus port unless an option supplies a non-zero external port, then that
port (the last one, when several options supply one). -/
def effectivePort (defaultPort : Int) (opts : List AddNodeOption) : Int :=
  match opts.reverse.find? (fun o => o.externalPort ≠ 0) with
  | some o => o.externalPort
  | none => defaultPort

/-- The peer URL as the claim words it: `https://`, the name, a colon and the
decimal port. -/
def plainLearnerURL (name : String) (port : Int) : String :=
  "https://" ++ name ++ ":" ++ Itoa port

/-! ## A fake consensus store -/

/-- The state of a fake consensus store: the certificates issued so far by
name, the etcd membership, and the current CRL. -/
structure FakeStore where
  certs : List (String × Bytes)
  members : List Member
  crl : CRL
deriving DecidableEq, Repr

/-- The fixed parts of a fake consensus store: the node ID function, the
default port, the name and bytes of the CA certificate, the bytes a newly
issued member certificate gets, the certificate parser, and the name under
which the store lists a learner added with the given peer URLs (the call
carries only the URLs; etcd lists an unstarted member with an empty name). -/
structure FakeConfig where
  NodeID : Bytes → String
  ConsensusPort : Nat
  caName : String
  caBytes : Bytes
  issue : String → Bytes → List String → Bytes
  ParseCertificate : Bytes → Except GoError Certificate
  learnerName : List String → String

/-- Modelled from the spec: `Certificate.Ensure` of the PKI package, which is
outside the verified files. If a certificate exists under the name its bytes
are returned unchanged; otherwise the new bytes are persisted under the name
and returned. -/
def FakeStore.ensure (name : String) (fresh : Bytes) (s : FakeStore) :
    Except GoError Bytes × FakeStore :=
  match s.certs.lookup name with
  | some b => (.ok b, s)
  | none => (.ok fresh, { s with certs := s.certs ++ [(name, fresh)] })

/-- The learner a fake store creates for the given peer URLs. -/
def FakeStore.newLearner (cfg : FakeConfig) (urls : List String) (s : FakeStore) : Member :=
  { ID := s.members.length + 1
    Name := cfg.learnerName urls
    PeerURLs := urls
    IsLearner := true }

/-- A fake `MemberAddAsLearner`: append a learner with the given peer URLs to
the membership and return it. -/
def FakeStore.addLearner (cfg : FakeConfig) (urls : List String) (s : FakeStore) :
    Except GoError Member × FakeStore :=
  (.ok (s.newLearner cfg urls), { s with members := s.members ++ [s.newLearner cfg urls] })

/-- The collaborators of `AddNode` backed by a fake store: memoized `Ensure`,
a membership list and CRL read from the store, and `MemberAddAsLearner`
adding a learner member with the given peer URLs. -/
def fakeEnv (cfg : FakeConfig) : ConsensusEnv FakeStore :=
  { NodeID := cfg.NodeID
    ConsensusPort := cfg.ConsensusPort
    pkiClient := none
    ensureCA := fun s => s.ensure cfg.caName cfg.caBytes
    ensureMember := fun name pk extraNames s => s.ensure name (cfg.issue name pk extraNames)
    ParseCertificate := cfg.ParseCertificate
    MemberList := fun s => (.ok s.members, s)
    crlGet := fun s => (.ok s.crl, s)
    MemberAddAsLearner := fun urls s => s.addLearner cfg urls }

/-- A fake store configuration that lists a new learner with an empty name,
as etcd does for a member that has not started. Certificates are one or two
bytes long and every such byte string parses. -/
def etcdLikeConfig : FakeConfig :=
  { NodeID := fun pk => "metropolis-" ++ String.join (pk.map toString)
    ConsensusPort := 7834
    caName := "ca"
    caBytes := [1]
    issue := fun _ pk _ => 2 :: pk.take 1
    ParseCertificate := fun b =>
      if b.length ≤ 2 then .ok { Raw := b, Fields := [] }
      else .error (.errorString "x509: malformed certificate")
    learnerName := fun _ => "" }

/-- A fake store configuration that lists a new learner under the node ID of
the public key `[7]`. -/
def namingConfig : FakeConfig :=
  { etcdLikeConfig with learnerName := fun _ => "metropolis-7" }

/-- A store with one voting member and one learner, and no certificates. -/
def sampleStore : FakeStore :=
  { certs := []
    members :=
      [{ ID := 1, Name := "metropolis-1", PeerURLs := ["https://metropolis-1:7834"], IsLearner := false },
       { ID := 2, Name := "metropolis-2", PeerURLs := ["https://metropolis-2:7834"], IsLearner := true }]
    crl := { Raw := [3], List := { Entries := [] } } }

/-- A fake store whose membership listing fails. -/
def brokenListEnv : ConsensusEnv FakeStore :=
  { fakeEnv etcdLikeConfig with
    MemberList := fun s => (.error (.errorString "etcdserver: request timed out"), s) }

/-! ## Loading and saving nodes (`state_node.go`) -/

/-- A `mvccpb.KeyValue`. -/
structure KeyValue where
  Key : String
  Value : Bytes
deriving DecidableEq, Repr

/-- An etcd operation as built by `clientv3.OpGet` and `clientv3.OpPut`. -/
inductive Op
  | OpGet (key : String)
  | OpPut (key : String) (val : Bytes)
deriving DecidableEq, Repr

/-- An `etcdserverpb.ResponseOp`: the answer to one operation of a
transaction. Only a range response carries key-value records. -/
inductive ResponseOp
  | ResponseRange (Kvs : List KeyValue)
  | ResponsePut
  | ResponseDeleteRange
  | ResponseTxn
deriving DecidableEq, Repr

/-- A `clientv3.TxnResponse`, with one answer per operation. -/
structure TxnResponse where
  Responses : List ResponseOp
deriving DecidableEq, Repr

/-- An active leadership over a store state `σ`: the method `txnAsLeader`,
which is defined outside the verified files. -/
structure Leadership (σ : Type) where
  txnAsLeader : List Op → σ → Except GoError TxnResponse × σ

/-- The package variable `errNodeNotFound`. -/
def errNodeNotFound : GoError :=
  .status .NotFound "node not found"

/-- The function `nodeLoad`. Indexing `res.Responses[0]` on an empty list,
reading `.Kvs` through the nil pointer `GetResponseRange` returns for another
kind of answer, and a panic of `nodeUnmarshal` are panics. -/
def nodeLoad {σ : Type} (d : Deps) (l : Leadership σ) (id : String) (s : σ) :
    Outcome (Option Node × Option GoError) × σ :=
  match d.nodeEtcdPrefixKey id with
  | .error _ => (.returned (none, some (.status .InvalidArgument "invalid node id")), s)
  | .ok key =>
    match l.txnAsLeader [.OpGet key] s with
    | (.error err, s1) =>
      match d.rpcError err with
      | some rpcErr => (.returned (none, some rpcErr), s1)
      | none =>
        (.returned (none, some (.status .Unavailable
          ("could not retrieve node " ++ id ++ ": " ++ err.Error))), s1)
    | (.ok res, s1) =>
      match res.Responses with
      | [] => (.panicked, s1)
      | .ResponseRange kvs :: _ =>
        if kvs.length ≠ 1 then (.returned (none, some errNodeNotFound), s1)
        else
          match kvs with
          | [] => (.panicked, s1)
          | kv :: _ =>
            match nodeUnmarshal d kv.Value with
            | .panicked => (.panicked, s1)
            | .returned (_, some _) =>
              (.returned (none, some (.status .Unavailable "could not unmarshal node")), s1)
            | .returned (node, none) => (.returned (node, none), s1)
      | _ :: _ => (.panicked, s1)

/-- The function `nodeSave`. -/
def nodeSave {σ : Type} (d : Deps) (l : Leadership σ) (n : Node) (s : σ) :
    Option GoError × σ :=
  let id := n.ID d
  match d.nodeEtcdPrefixKey id with
  | .error _ => (some (.status .InvalidArgument "invalid node id"), s)
  | .ok key =>
    match d.protoMarshal n.proto with
    | .error _ => (some (.status .Unavailable "could not marshal updated node"), s)
    | .ok nodeBytes =>
      match l.txnAsLeader [.OpPut key nodeBytes] s with
      | (.error err, s1) =>
        match d.rpcError err with
        | some rpcErr => (some rpcErr, s1)
        | none => (some (.status .Unavailable "could not save updated node"), s1)
      | (.ok _, s1) => (none, s1)

/-! ## A fake key-value store behind the leadership gate -/

/-- The state of a fake key-value store: its records, and the error every
transaction fails with while the store is unreachable. -/
structure FakeKV where
  records : List (String × Bytes)
  failure : Option GoError
deriving DecidableEq, Repr

/-- One operation on the records of a fake store. -/
def FakeKV.apply (records : List (String × Bytes)) :
    Op → ResponseOp × List (String × Bytes)
  | .OpGet key =>
    (.ResponseRange ((records.filter (fun r => r.1 = key)).map
      (fun r => { Key := r.1, Value := r.2 })), records)
  | .OpPut key val =>
    (.ResponsePut, (records.filter (fun r => r.1 ≠ key)) ++ [(key, val)])

/-- All operations of a transaction on the records of a fake store. -/
def FakeKV.applyAll (records : List (String × Bytes)) :
    List Op → List ResponseOp × List (String × Bytes)
  | [] => ([], records)
  | op :: ops =>
    let r := FakeKV.apply records op
    let rs := FakeKV.applyAll r.2 ops
    (r.1 :: rs.1, rs.2)

/-- A fake leadership gate: a transaction fails with the store failure if
there is one, and otherwise applies its operations in order. -/
def fakeLeadership : Leadership FakeKV :=
  { txnAsLeader := fun ops s =>
      match s.failure with
      | some e => (.error e, s)
      | none =>
        let r := FakeKV.applyAll s.records ops
        (.ok { Responses := r.1 }, { s with records := r.2 }) }

/-- A fake store with no records. -/
def emptyKV : FakeKV :=
  { records := [], failure := none }

/-- A fake store whose transactions fail with the given error text. -/
def unreachableKV (text : String) : FakeKV :=
  { records := [], failure := some (.errorString text) }

/-- A fake store holding the given bytes under the key of node `n1`. -/
def recordKV (value : Bytes) : FakeKV :=
  { records := [("/nodes/n1", value)], failure := none }

/-! ## Node construction and role attachment (`state_node.go`) -/

/-- The function `NewNodeForBootstrap`: the fields not named in the struct
literal take their zero values (nil status, nil role pointers). -/
def NewNodeForBootstrap (cuk pubkey : Bytes) : Node :=
  { clusterUnlockKey := cuk
    pubkey := pubkey
    state := .NODE_STATE_UP
    status := none
    kubernetesWorker := none
    consensusMember := none }

/-- The method `Node.EnableKubernetesWorker`. -/
def Node.EnableKubernetesWorker (n : Node) : Node :=
  { n with kubernetesWorker := some {} }

/-- The peer slice of `EnableConsensusMember`: `make` gives one zero peer per
existing node, and the loop assigns the name and URL of the i-th existing
node to the i-th peer. -/
def consensusMemberPeers (existing : List ExistingNode) : List NodeRoleConsensusMemberPeer :=
  existing.enum.foldl
    (fun peers ie => peers.set ie.1 { Name := ie.2.Name, URL := ie.2.URL })
    (List.replicate existing.length { Name := "", URL := "" })

/-- The method `Node.EnableConsensusMember`. -/
def Node.EnableConsensusMember (n : Node) (jc : JoinCluster) : Node :=
  { n with
    consensusMember := some
      { CACertificate := jc.CACertificate
        PeerCertificate := jc.NodeCertificate
        Peers := consensusMemberPeers jc.ExistingNodes
        CRL := jc.InitialCRL } }

/-- A fake store on which the calling replica has lost leadership: every
transaction is rejected with this error and applies nothing. -/
def staleKV : FakeKV :=
  { records := [("/nodes/metropolis-77", [1])], failure := some (.errorString "lost leadership") }

/-- A bundle with two existing nodes. -/
def sampleJoinCluster : JoinCluster :=
  { CACertificate := { Raw := [10], Fields := [1] }
    NodeCertificate := { Raw := [11], Fields := [2] }
    ExistingNodes := [{ Name := "a", URL := "https://a:1" }, { Name := "b", URL := "https://b:2" }]
    InitialCRL := { Raw := [12], List := { Entries := [] } } }

/-! ## EFI variable strings (`efivarfs.go`) -/

/-- Go `utf8.RuneError`, the replacement character. -/
def RuneError : Nat := 0xFFFD

/-- Go `utf8.EncodeRune`: the UTF-8 bytes of a rune; a surrogate or a rune
beyond U+10FFFF is written as the replacement character. -/
def utf8EncodeRune (r : Nat) : Bytes :=
  if r < 0x80 then [r]
  else if r < 0x800 then [0xC0 + r / 64, 0x80 + r % 64]
  else if 0xD800 ≤ r ∧ r < 0xE000 then [0xEF, 0xBF, 0xBD]
  else if r < 0x10000 then [0xE0 + r / 4096, 0x80 + r / 64 % 64, 0x80 + r % 64]
  else if r < 0x110000 then
    [0xF0 + r / 262144, 0x80 + r / 4096 % 64, 0x80 + r / 64 % 64, 0x80 + r % 64]
  else [0xEF, 0xBF, 0xBD]

/-- The 16-bit code unit of two bytes in little-endian order. -/
def utf16Unit (lo hi : Nat) : Nat :=
  lo % 256 + 256 * (hi % 256)

/-- Go `utf16.IsSurrogate`. -/
def utf16IsSurrogate (r : Nat) : Bool :=
  0xD800 ≤ r && r < 0xE000

/-- Go `utf16.DecodeRune`: the rune of a surrogate pair, the replacement
character if the pair is not valid. -/
def utf16DecodeRune (r1 r2 : Nat) : Nat :=
  if 0xD800 ≤ r1 ∧ r1 < 0xDC00 ∧ 0xDC00 ≤ r2 ∧ r2 < 0xE000 then
    (r1 - 0xD800) * 0x400 + (r2 - 0xDC00) + 0x10000
  else RuneError

/-- The decoder `unicode.UTF16(unicode.LittleEndian, unicode.IgnoreBOM)` of
`golang.org/x/text`, applied to a complete input: each pair of bytes is a
little-endian code unit, a surrogate followed by a second unit in the range
DC00 to DFFF is decoded as a pair, any other surrogate and a single trailing
byte become the replacement character, and a byte order mark is decoded like
any other character. -/
def utf16LEDecode : Bytes → Bytes
  | [] => []
  | [_] => utf8EncodeRune RuneError
  | [lo, hi] => utf8EncodeRune (utf16Unit lo hi)
  | [lo, hi, b] => utf8EncodeRune (utf16Unit lo hi) ++ utf16LEDecode [b]
  | lo :: hi :: lo2 :: hi2 :: rest =>
    if utf16IsSurrogate (utf16Unit lo hi) &&
        (0xDC00 ≤ utf16Unit lo2 hi2 && utf16Unit lo2 hi2 ≤ 0xDFFF) then
      utf8EncodeRune (utf16DecodeRune (utf16Unit lo hi) (utf16Unit lo2 hi2))
        ++ utf16LEDecode rest
    else
      utf8EncodeRune (utf16Unit lo hi) ++ utf16LEDecode (lo2 :: hi2 :: rest)

/-- Go `bytes.TrimSuffix`. -/
def bytesTrimSuffix (b suffix : Bytes) : Bytes :=
  if suffix.isSuffixOf b then b.take (b.length - suffix.length) else b

/-- The function `ExtractString`. The returned Go string is given by its
bytes. The decoder of `golang.org/x/text` reports no error on a complete
input; the error branch of the source is kept. -/
def ExtractString (contents : Bytes) : Bytes × Option GoError :=
  if contents.length < 4 then ([], some (.errorString "contents too short."))
  else
    let efiVarData := contents.drop 4
    match (Except.ok (utf16LEDecode efiVarData) : Except GoError Bytes) with
    | .error err => ([], some err)
    | .ok espUUIDNullTerminated => (bytesTrimSuffix espUUIDNullTerminated [0], none)

/-- The bytes of a Go string with the given characters: their UTF-8
encodings in order. -/
def goStringBytes (s : String) : Bytes :=
  s.data.flatMap (fun c => utf8EncodeRune c.toNat)

/-- The UTF-16 little-endian encoding of a string of characters of the Basic
Multilingual Plane: two bytes per character, low byte first. -/
def utf16LEEncodeBMP (s : String) : Bytes :=
  s.data.flatMap (fun c => [c.toNat % 256, c.toNat / 256])

/-! ## Equinix API wrappers (`wrapn.go`) -/

/-- A `packngo.Device`, with the fields this package reads. -/
structure Device where
  ID : String
  Tags : List String
deriving DecidableEq, Repr

/-- A `packngo.HardwareReservation`; `Device` is a pointer and may be nil. -/
structure HardwareReservation where
  ID : String
  Device : Option Device
deriving DecidableEq, Repr

/-- A `packngo.DeviceCreateRequest`, with the fields this package reads and
one further field. -/
structure DeviceCreateRequest where
  Hostname : String
  HardwareReservationID : String
  Tags : List String
deriving DecidableEq, Repr

/-- A `packngo.SSHKey`. -/
structure SSHKey where
  ID : String
  Label : String
  Key : String
deriving DecidableEq, Repr

/-- A `packngo.SSHKeyCreateRequest`. -/
structure SSHKeyCreateRequest where
  Label : String
  Key : String
deriving DecidableEq, Repr

/-- One call of the Equinix API, with its arguments. -/
inductive ApiCall
  | HardwareReservationsGet (id : String)
  | DevicesCreate (r : DeviceCreateRequest)
  | SSHKeysList
  | SSHKeysCreate (r : SSHKeyCreateRequest)
deriving DecidableEq, Repr

/-- The calls of `packngo.Client` used by `CreateDevice` and `CreateSSHKey`,
over an API state `σ`. A call answers with an error or with its result; the
result pointers of `HardwareReservations.Get`, `Devices.Create` and
`SSHKeys.Create` may be nil. -/
structure PackngoClient (σ : Type) where
  HardwareReservationsGet : String → σ → Except GoError (Option HardwareReservation) × σ
  DevicesCreate : DeviceCreateRequest → σ → Except GoError (Option Device) × σ
  SSHKeysList : σ → Except GoError (List SSHKey) × σ
  SSHKeysCreate : SSHKeyCreateRequest → σ → Except GoError (Option SSHKey) × σ

/-- The API state together with the log of the API calls made so far. -/
structure ApiWorld (σ : Type) where
  api : σ
  calls : List ApiCall

/-- One attempt of a wrapped call: it runs on the world and returns a Go
result pair. -/
abbrev Attempt (σ α : Type) := ApiWorld σ → (Option α × Option GoError) × ApiWorld σ

/-- The shape of the function `wrap`, which is defined outside the verified
files: it runs attempts of the given closure under rate limit and back-off. -/
abbrev Wrap (σ α : Type) := Attempt σ α → Attempt σ α

/-- The package variable `ErrRaceLost`. -/
def ErrRaceLost : GoError :=
  .errorString "race lost with another API user"

/-- The package variable `ErrNoReservationProvided`. -/
def ErrNoReservationProvided : GoError :=
  .errorString "hardware reservation must be set"

/-- The tag map built in `CreateDevice`: every tag of the device is set to
true, and a tag that was never set reads as false. -/
def tagSet (tags : List String) : String → Bool :=
  tags.foldl (fun m tag => fun t => if t = tag then true else m t) (fun _ => false)

/-- The closure `CreateDevice` passes to `wrap`: one attempt for the request
`r`, which already carries the witness tag. -/
def createDeviceAttempt {σ : Type} (cl : PackngoClient σ) (r : DeviceCreateRequest)
    (witnessTag : String) : Attempt σ Device := fun w =>
  match cl.HardwareReservationsGet r.HardwareReservationID w.api with
  | (.error err, s1) =>
    ((none, some (.wrapped "couldn't check if device already exists: " err)),
      ⟨s1, w.calls ++ [.HardwareReservationsGet r.HardwareReservationID]⟩)
  | (.ok none, s1) =>
    ((none, some (.errorString "unexpected nil response")),
      ⟨s1, w.calls ++ [.HardwareReservationsGet r.HardwareReservationID]⟩)
  | (.ok (some res), s1) =>
    match res.Device with
    | some dev =>
      if !tagSet dev.Tags witnessTag then
        ((none, some ErrRaceLost),
          ⟨s1, w.calls ++ [.HardwareReservationsGet r.HardwareReservationID]⟩)
      else
        ((some dev, none),
          ⟨s1, w.calls ++ [.HardwareReservationsGet r.HardwareReservationID]⟩)
    | none =>
      match cl.DevicesCreate r s1 with
      | (.ok dev, s2) =>
        ((dev, none),
          ⟨s2, w.calls ++ [.HardwareReservationsGet r.HardwareReservationID, .DevicesCreate r]⟩)
      | (.error err, s2) =>
        ((none, some (.wrapped "couldn't create device: " err)),
          ⟨s2, w.calls ++ [.HardwareReservationsGet r.HardwareReservationID, .DevicesCreate r]⟩)

/-- The result of `CreateDevice`: the returned pair, the request as the call
leaves it (the caller passes a pointer), and the world after the call. -/
structure CreateDeviceRun (σ : Type) where
  device : Option Device
  err : Option GoError
  request : DeviceCreateRequest
  world : ApiWorld σ

/-- The method `client.CreateDevice`. The text of `uuid.New()` is an input. -/
def CreateDevice {σ : Type} (wrap : Wrap σ Device) (cl : PackngoClient σ) (uuid : String)
    (r : DeviceCreateRequest) (w : ApiWorld σ) : CreateDeviceRun σ :=
  if r.HardwareReservationID = "" then ⟨none, some ErrNoReservationProvided, r, w⟩
  else
    let witnessTag := "wrapngo-idempotency-" ++ uuid
    let r := { r with Tags := r.Tags ++ [witnessTag] }
    let res := wrap (createDeviceAttempt cl r witnessTag) w
    ⟨res.1.1, res.1.2, r, res.2⟩

/-- The key loop of `CreateSSHKey`: `some` of the pair returned from inside
the loop, or `none` when the loop ends without returning. -/
def findSSHKey (r : SSHKeyCreateRequest) :
    List SSHKey → Option (Option SSHKey × Option GoError)
  | [] => none
  | k :: ks =>
    if k.Label = r.Label then
      if k.Key ≠ r.Key then
        some (none, some (.errorString "key label already in use for a different key"))
      else some (some k, none)
    else findSSHKey r ks

/-- The closure `CreateSSHKey` passes to `wrap`: one attempt. -/
def createSSHKeyAttempt {σ : Type} (cl : PackngoClient σ) (r : SSHKeyCreateRequest) :
    Attempt σ SSHKey := fun w =>
  match cl.SSHKeysList w.api with
  | (.error err, s1) =>
    ((none, some (.wrapped "SSHKeys.List: " err)), ⟨s1, w.calls ++ [.SSHKeysList]⟩)
  | (.ok ks, s1) =>
    match findSSHKey r ks with
    | some res => (res, ⟨s1, w.calls ++ [.SSHKeysList]⟩)
    | none =>
      match cl.SSHKeysCreate r s1 with
      | (.error err, s2) =>
        ((none, some (.wrapped "SSHKeys.Create: " err)),
          ⟨s2, w.calls ++ [.SSHKeysList, .SSHKeysCreate r]⟩)
      | (.ok k, s2) => ((k, none), ⟨s2, w.calls ++ [.SSHKeysList, .SSHKeysCreate r]⟩)

/-- The method `client.CreateSSHKey`. -/
def CreateSSHKey {σ : Type} (wrap : Wrap σ SSHKey) (cl : PackngoClient σ)
    (r : SSHKeyCreateRequest) : Attempt σ SSHKey :=
  wrap (createSSHKeyAttempt cl r)

/-- The key that decides an attempt of `CreateSSHKey`: the first key of the
listing that carries the label. -/
def firstWithLabel (ks : List SSHKey) (label : String) : Option SSHKey :=
  ks.find? (fun k => k.Label = label)

/-! ## A fake Equinix API -/

/-- The state of a fake Equinix API: hardware reservations and SSH keys. -/
structure FakeEquinix where
  reservations : List HardwareReservation
  keys : List SSHKey
deriving DecidableEq, Repr

/-- A fake Equinix API. A reservation is looked up by ID; creating a device
attaches it to its reservation; keys are listed as stored and a created key
is appended with the next number as ID. -/
def fakePackngo : PackngoClient FakeEquinix :=
  { HardwareReservationsGet := fun id s =>
      match s.reservations.find? (fun res => res.ID = id) with
      | some res => (.ok (some res), s)
      | none => (.error (.errorString "404 Not found"), s)
    DevicesCreate := fun r s =>
      let dev : Device := { ID := "dev-" ++ r.HardwareReservationID, Tags := r.Tags }
      (.ok (some dev),
        { s with reservations := s.reservations.map (fun res =>
            if res.ID = r.HardwareReservationID then { res with Device := some dev } else res) })
    SSHKeysList := fun s => (.ok s.keys, s)
    SSHKeysCreate := fun r s =>
      let k : SSHKey := { ID := toString s.keys.length, Label := r.Label, Key := r.Key }
      (.ok (some k), { s with keys := s.keys ++ [k] }) }

/-- A test double of `wrap`: it runs the attempt, returns a success at once,
returns a permanent error at once, and retries another error on the world
the failed attempt left, as long as retries remain; the last error is
returned when they are used up. -/
def retryWrap {σ α : Type} (isPermanent : GoError → Bool) : Nat → Wrap σ α
  | 0, fn, w =>
    match fn w with
    | ((v, none), w1) => ((v, none), w1)
    | ((_, some e), w1) => ((none, some e), w1)
  | retries + 1, fn, w =>
    match fn w with
    | ((v, none), w1) => ((v, none), w1)
    | ((_, some e), w1) =>
      if isPermanent e then ((none, some e), w1) else retryWrap isPermanent retries fn w1

/-- A fake API state: reservation `res-1` already holds a device of another
user, reservation `res-2` is free, and the label `ops` is stored twice with
different key material. -/
def sampleEquinix : ApiWorld FakeEquinix :=
  { api :=
      { reservations :=
          [{ ID := "res-1", Device := some { ID := "dev-9", Tags := ["other"] } },
           { ID := "res-2", Device := none }]
        keys :=
          [{ ID := "0", Label := "ops", Key := "ssh-ed25519 AAAA" },
           { ID := "1", Label := "ops", Key := "ssh-ed25519 BBBB" }] }
    calls := [] }

/-! ## Storage manager (`storage/data.go`) -/

/-- The declarations `data.go` uses from outside the verified files: the
`DataPlace` constants `PlaceESP` and `PlaceData` (values of an integer type),
the errors `ErrNotInitialized` and `ErrUnknownPlace`, and the library
function `filepath.Join` of two elements. -/
structure StorageDecls where
  PlaceESP : Nat
  PlaceData : Nat
  ErrNotInitialized : GoError
  ErrUnknownPlace : GoError
  filepathJoin : String → String → String

/-- The constant `dataMountPath`. -/
def dataMountPath : String := "/data"

/-- The constant `espMountPath`. -/
def espMountPath : String := "/esp"

/-- The constant `espDataPath`. -/
def espDataPath : String := espMountPath ++ "/EFI/smalltown"

/-- The `Manager` struct, without its logger; of the read-write mutex only
the number of read locks held is kept. -/
structure Manager where
  dataReady : Bool
  initializationError : Option GoError
  mutexReaders : Nat
deriving DecidableEq, Repr

/-- The method `Manager.GetPathInPlace`: the read lock is taken on entry and
released by the deferred unlock on return. The result is the returned pair
and the manager after the call. -/
def Manager.GetPathInPlace (decls : StorageDecls) (s : Manager) (place : Nat) (path : String) :
    (String × Option GoError) × Manager :=
  let locked := { s with mutexReaders := s.mutexReaders + 1 }
  let unlock (m : Manager) : Manager := { m with mutexReaders := m.mutexReaders - 1 }
  if place = decls.PlaceESP then
    ((decls.filepathJoin espDataPath path, none), unlock locked)
  else if place = decls.PlaceData then
    if locked.dataReady then
      ((decls.filepathJoin dataMountPath path, none), unlock locked)
    else (("", some decls.ErrNotInitialized), unlock locked)
  else (("", some decls.ErrUnknownPlace), unlock locked)

/-- A test double of the declarations: places 0 and 1, two error values,
and a join that puts a slash between directory and path. -/
def sampleStorageDecls : StorageDecls :=
  { PlaceESP := 0
    PlaceData := 1
    ErrNotInitialized := .errorString "this place is not initialized"
    ErrUnknownPlace := .errorString "this place is not known"
    filepathJoin := fun dir path => dir ++ "/" ++ path }

/-! ## Local filesystem placement (`placement_local.go`) -/

/-- The `FSRoot` struct. -/
structure FSRoot where
  root : String
deriving DecidableEq, Repr

/-- The `FSPlacement` struct; `root` points to the `FSRoot` made by `PlaceFS`. -/
structure FSPlacement where
  root : FSRoot
  path : String
deriving DecidableEq, Repr

/-- The method `FSPlacement.FullPath`. -/
def FSPlacement.FullPath (f : FSPlacement) : String :=
  f.path

/-- The method `FSPlacement.RootRef`. -/
def FSPlacement.RootRef (f : FSPlacement) : FSRoot :=
  f.root

/-- The closure `pathFor` of `PlaceFS`. -/
def pathFor (parent this : String) : String :=
  if parent = "" ∧ this = "" then "/"
  else if parent = "/" then "/" ++ this
  else parent ++ "/" ++ this

/-- The closure `dp` of `PlaceFS` for the given root string: the directory
placement for a parent path and a name. The closure `fp` for files has the
same body. -/
def PlaceFS.dp (root : String) (parent this : String) : FSPlacement :=
  { path := pathFor parent this, root := { root := root } }

/-- The closure `fp` of `PlaceFS` for the given root string. -/
def PlaceFS.fp (root : String) (parent this : String) : FSPlacement :=
  { path := pathFor parent this, root := { root := root } }

/-- A path lies under a root when the characters of the root begin the path. -/
def liesUnder (root path : String) : Prop :=
  root.data <+: path.data

instance (root path : String) : Decidable (liesUnder root path) := by
  unfold liesUnder
  infer_instance

/-! ## Disk key derivation (`directory_data.go`, `storage/data.go`) -/

/-- The package variable `keySize`, in bytes. -/
def keySize : Nat := 256 / 8

/-- One iteration of the key loop: `key[i] = localUnlockKey[i] ^
globalUnlockKey[i]`; an index beyond either key is a panic. All values are
bytes. -/
def xorKeyStep (localUnlockKey globalUnlockKey : Bytes) (acc : Outcome Bytes) (i : Nat) :
    Outcome Bytes :=
  match acc with
  | .panicked => .panicked
  | .returned key =>
    match localUnlockKey[i]?, globalUnlockKey[i]? with
    | some a, some b => .returned (key.set i ((a ^^^ b) % 256))
    | _, _ => .panicked

/-- The key derivation of `MountNew`, `MountExisting`, `InitializeData` and
`MountData`: a zeroed key of `keySize` bytes, filled by the loop over the
indices below `keySize`. -/
def deriveDiskKey (localUnlockKey globalUnlockKey : Bytes) : Outcome Bytes :=
  (List.range keySize).foldl (xorKeyStep localUnlockKey globalUnlockKey)
    (.returned (List.replicate keySize 0))

/-- The byte-wise XOR of two byte strings, up to the shorter one. -/
def xorBytes (a b : Bytes) : Bytes :=
  List.zipWith (fun x y => x ^^^ y) a b

/-- A key of `keySize` bytes. -/
def IsKey (k : Bytes) : Prop :=
  k.length = keySize ∧ ∀ b ∈ k, b < 256

instance (k : Bytes) : Decidable (IsKey k) := by
  unfold IsKey
  infer_instance

/-- A sample local unlock key. -/
def sampleLocalKey : Bytes :=
  [1, 2, 3, 4, 5, 6, 7, 8, 9, 10, 11, 12, 13, 14, 15, 16,
   17, 18, 19, 20, 21, 22, 23, 24, 25, 26, 27, 28, 29, 30, 31, 32]

/-- A sample global unlock key. -/
def sampleGlobalKey : Bytes :=
  [255, 0, 255, 0, 255, 0, 255, 0, 170, 85, 170, 85, 170, 85, 170, 85,
   1, 1, 1, 1, 1, 1, 1, 1, 128, 64, 32, 16, 8, 4, 2, 1]

/-! ## Random MAC addresses (`cluster.go`) -/

/-- The function `generateRandomEthernetMAC`. The argument is the outcome of
`rand.Read` on the six-byte buffer: an error, or the buffer filled with
random bytes. -/
def generateRandomEthernetMAC (randRead : Except GoError Bytes) : Option Bytes × Option GoError :=
  match randRead with
  | .error err =>
    (none, some (.errorString ("failed to read randomness for MAC: " ++ err.Error)))
  | .ok macBuf =>
    (some (macBuf.set 0 (((macBuf.getD 0 0 ||| 2) &&& 0xfe) % 256)), none)

/-! ## The wrapngo client constructor (`wrapn.go`) -/

/-- The value of the `BackOff` option: a factory given by the caller, or the
default factory that `new` installs, which calls
`backoff.NewExponentialBackOff`. -/
inductive BackOffFactory
  | custom (id : Nat)
  | exponential
deriving DecidableEq, Repr

/-- The `Opts` struct. `APIRate` is a `time.Duration` in nanoseconds,
`BackOff` is a function value that may be nil. -/
structure Opts where
  User : String
  APIKey : String
  BackOff : Option BackOffFactory
  APIRate : Int
  Parallelism : Int
deriving DecidableEq, Repr

/-- The `client` struct: `o` is the options as `new` leaves them, `rlt` the
period of the rate-limiting ticker, `serializer` the capacity of the
semaphore channel. -/
structure Client where
  username : String
  token : String
  o : Opts
  rlt : Int
  serializer : Nat
deriving DecidableEq, Repr

/-- Go `time.Second`, in nanoseconds. -/
def timeSecond : Int := 1000000000

/-- The function `new`. `time.NewTicker` panics for a period that is not
positive and `make` panics for a negative channel capacity. -/
def new (opts : Opts) : Outcome Client :=
  let opts := if opts.APIRate = 0 then { opts with APIRate := 2 * timeSecond } else opts
  let opts :=
    match opts.BackOff with
    | none => { opts with BackOff := some .exponential }
    | some _ => opts
  let opts := if opts.Parallelism = 0 then { opts with Parallelism := 1 } else opts
  if opts.APIRate ≤ 0 then .panicked
  else if opts.Parallelism < 0 then .panicked
  else
    .returned
      { username := opts.User
        token := opts.APIKey
        o := opts
        rlt := opts.APIRate
        serializer := opts.Parallelism.toNat }

/-- A fake store that lists a new learner with an empty name and, as etcd
does, refuses to add a member whose peer URL is already in use. -/
def rejectingEnv : ConsensusEnv FakeStore :=
  { fakeEnv etcdLikeConfig with
    MemberAddAsLearner := fun urls s =>
      if s.members.any (fun m => m.PeerURLs.any (fun u => urls.contains u)) then
        (.error (.errorString "etcdserver: Peer URLs already exists"), s)
      else s.addLearner etcdLikeConfig urls }

/-! ## Test doubles for the node entity -/

/-- A sample node with both roles, a status and two peers. -/
def sampleNode : Node :=
  { clusterUnlockKey := [1, 2, 3]
    pubkey := [7, 7]
    state := .NODE_STATE_UP
    status := some { payload := [9] }
    kubernetesWorker := some {}
    consensusMember := some
      { CACertificate := { Raw := [10], Fields := [1] }
        PeerCertificate := { Raw := [11], Fields := [2] }
        CRL := { Raw := [12], List := { Entries := [] } }
        Peers := [{ Name := "a", URL := "https://a:1" }, { Name := "b", URL := "https://b:2" }] } }

/-- A stored message whose consensus-member role carries a CA certificate
that does not parse. -/
def corruptMessage : PbNode :=
  { ClusterUnlockKey := [1]
    PublicKey := [7]
    FsmState := .NODE_STATE_UP
    Roles := some
      { KubernetesWorker := none
        ConsensusMember := some
          { CaCertificate := [99], PeerCertificate := [11], InitialCrl := [12], Peers := [] } }
    Status := none }

/-- A stored message with a worker role and no consensus-member role. -/
def workerMessage : PbNode :=
  { ClusterUnlockKey := [1]
    PublicKey := [7]
    FsmState := .NODE_STATE_NEW
    Roles := some { KubernetesWorker := some {}, ConsensusMember := none }
    Status := none }

/-- A test double of the external functions: a codec that knows three
messages (encoded as the single bytes 42, 43 and 44), a certificate parser
that accepts the one-byte encodings 10 and 11, a CRL parser that accepts the
one-byte encoding 12, keys under `/nodes/`, and an `rpcError` that passes
statuses through. -/
def sampleDeps : Deps :=
  { NodeID := fun pk => "metropolis-" ++ String.join (pk.map toString)
    protoMarshal := fun m =>
      if m = sampleNode.proto then .ok [42]
      else if m = corruptMessage then .ok [43]
      else if m = workerMessage then .ok [44]
      else .error (.errorString "proto: cannot marshal")
    protoUnmarshal := fun b =>
      if b = [42] then .ok sampleNode.proto
      else if b = [43] then .ok corruptMessage
      else if b = [44] then .ok workerMessage
      else .error (.errorString "proto: cannot parse")
    ParseCertificate := fun b =>
      if b = [10] then .ok { Raw := [10], Fields := [1] }
      else if b = [11] then .ok { Raw := [11], Fields := [2] }
      else .error (.errorString "x509: malformed certificate")
    ParseCRL := fun b =>
      if b = [12] then .ok { Entries := [] } else .error (.errorString "x509: malformed crl")
    nodeEtcdPrefixKey := fun id =>
      if id = "" then .error (.errorString "invalid id") else .ok ("/nodes/" ++ id)
    rpcError := fun e =>
      match e with
      | .status c m => some (.status c m)
      | _ => none }

/-! ## Theorems -/

/-- The peer loop of `nodeUnmarshal` is a map over the message peers. -/
theorem unmarshalPeers_eq_map (ps : List PbPeer) :
    unmarshalPeers ps = ps.map (fun p => { Name := p.Name, URL := p.URL }) := by
  have h : ∀ (acc : List NodeRoleConsensusMemberPeer),
      ps.foldl (fun acc p => acc ++ [{ Name := p.Name, URL := p.URL }]) acc
        = acc ++ ps.map (fun p => { Name := p.Name, URL := p.URL }) := by
    induction ps with
    | nil => intro acc; simp
    | cons p ps ih => intro acc; simp [ih]
  simpa [unmarshalPeers] using h []

/-- C1: for every node whose marshalled message the protobuf codec reads back
(the round-trip law of the codec) and whose consensus-member certificates and
CRL parse back from their raw bytes, `nodeUnmarshal` of the marshalled
`proto` succeeds and yields a node with the same ID, public key, cluster
unlock key, lifecycle state and status, the same presence of each role, and
for the consensus-member role the same CA certificate, peer certificate, CRL
bytes and peer list. -/
theorem nodeUnmarshal_proto_roundtrip (d : Deps) (n : Node) (data : Bytes)
    (hcodec : ∀ m b, d.protoMarshal m = .ok b → d.protoUnmarshal b = .ok m)
    (hmarshal : d.protoMarshal n.proto = .ok data)
    (hparse : ∀ cm, n.consensusMember = some cm →
      d.ParseCertificate cm.CACertificate.Raw = .ok cm.CACertificate ∧
      d.ParseCertificate cm.PeerCertificate.Raw = .ok cm.PeerCertificate ∧
      ∃ l, d.ParseCRL cm.CRL.Raw = .ok l) :
    ∃ m, nodeUnmarshal d data = .returned (some m, none) ∧
      m.ID d = n.ID d ∧ m.pubkey = n.pubkey ∧
      m.clusterUnlockKey = n.clusterUnlockKey ∧
      m.state = n.state ∧ m.status = n.status ∧
      m.kubernetesWorker.isSome = n.kubernetesWorker.isSome ∧
      m.consensusMember.isSome = n.consensusMember.isSome ∧
      ∀ cm, n.consensusMember = some cm →
        ∃ cm2, m.consensusMember = some cm2 ∧
          cm2.CACertificate = cm.CACertificate ∧
          cm2.PeerCertificate = cm.PeerCertificate ∧
          cm2.CRL.Raw = cm.CRL.Raw ∧
          cm2.Peers = cm.Peers := by
  have hread := hcodec _ _ hmarshal
  obtain ⟨cuk, pk, st, status, kw, cmo⟩ := n
  cases cmo with
  | none =>
    cases kw <;>
      simp [nodeUnmarshal, hread, Node.proto, Node.ID]
  | some cm =>
    obtain ⟨hca, hpeer, l, hcrl⟩ := hparse cm rfl
    have hpeers : List.map ((fun p => { Name := p.Name, URL := p.URL } : PbPeer → NodeRoleConsensusMemberPeer) ∘
        (fun p => { Name := p.Name, URL := p.URL } : NodeRoleConsensusMemberPeer → PbPeer)) cm.Peers = cm.Peers := by
      induction cm.Peers with
      | nil => rfl
      | cons p ps ih => simp [ih]
    cases kw <;>
      simp [nodeUnmarshal, hread, Node.proto, Node.ID, hca, hpeer, hcrl,
        unmarshalPeers_eq_map, hpeers]

/-- Witness for C1: the sample node round-trips through the sample codec. -/
theorem nodeUnmarshal_proto_roundtrip_witness :
    ∃ m, nodeUnmarshal sampleDeps [42] = .returned (some m, none) ∧
      m.ID sampleDeps = sampleNode.ID sampleDeps ∧ m.pubkey = sampleNode.pubkey ∧
      m.clusterUnlockKey = sampleNode.clusterUnlockKey ∧
      m.state = sampleNode.state ∧ m.status = sampleNode.status ∧
      m.kubernetesWorker.isSome = sampleNode.kubernetesWorker.isSome ∧
      m.consensusMember.isSome = sampleNode.consensusMember.isSome ∧
      ∀ cm, sampleNode.consensusMember = some cm →
        ∃ cm2, m.consensusMember = some cm2 ∧
          cm2.CACertificate = cm.CACertificate ∧
          cm2.PeerCertificate = cm.PeerCertificate ∧
          cm2.CRL.Raw = cm.CRL.Raw ∧
          cm2.Peers = cm.Peers :=
  nodeUnmarshal_proto_roundtrip sampleDeps sampleNode [42]
    (by
      intro m b h
      simp only [sampleDeps] at h ⊢
      split_ifs at h <;> cases h <;> simp_all)
    (by simp [sampleDeps])
    (by
      intro cm h
      simp only [sampleNode, Option.some.injEq] at h
      subst h
      simp [sampleDeps])

/-! ### AddNode -/

/-- The existing-node list of the member loop is the list of voting peers. -/
theorem scanMembers_existingNodes (nodeID : String) (members : List Member) :
    (scanMembers nodeID members).existingNodes = votingPeers members := by
  have h : ∀ (acc : MemberScan),
      (members.foldl (scanStep nodeID) acc).existingNodes
        = acc.existingNodes ++ votingPeers members := by
    induction members with
    | nil => intro acc; simp [votingPeers]
    | cons m ms ih =>
      intro acc
      rw [List.foldl_cons, ih]
      unfold scanStep
      rcases hl : m.IsLearner with _ | _ <;> rcases hu : m.PeerURLs with _ | ⟨u, us⟩ <;>
        by_cases hn : m.Name = nodeID <;>
        simp [votingPeers, hl, hu, hn]
  simpa [scanMembers] using h _

/-- The member loop reports the node as existing exactly when some listed
member carries its name. -/
theorem scanMembers_newExists (nodeID : String) (members : List Member) :
    (scanMembers nodeID members).newExists = true ↔ ∃ m ∈ members, m.Name = nodeID := by
  have h : ∀ (acc : MemberScan),
      (members.foldl (scanStep nodeID) acc).newExists = true
        ↔ (acc.newExists = true ∨ ∃ m ∈ members, m.Name = nodeID) := by
    induction members with
    | nil => intro acc; simp
    | cons m ms ih =>
      intro acc
      rw [List.foldl_cons, ih]
      unfold scanStep
      rcases hl : m.IsLearner with _ | _ <;> rcases hu : m.PeerURLs with _ | ⟨u, us⟩ <;>
        by_cases hn : m.Name = nodeID <;>
        simp [hl, hu, hn]
  simpa [scanMembers] using h { existingNodes := [], newExists := false }

/-- Every run of `AddNode` follows one of its paths. -/
theorem AddNode_path {σ : Type} (env : ConsensusEnv σ) (pk : Bytes)
    (opts : List AddNodeOption) (s : σ) :
    AddNodePath env pk opts s (AddNode env pk opts s) := by
  rcases h0 : env.pkiClient with _ | e0
  swap
  · have h : AddNode env pk opts s = ⟨none, some e0, s, [.pkiClient (some e0)]⟩ := by
      simp [AddNode, h0]
    rw [h]; exact .pkiClientFailed e0 h0
  rcases h1 : env.ensureCA s with ⟨_ | caBytes, s1⟩
  · have h := @AddNodePath.ensureCAFailed σ env pk opts s _ _ h0 h1
    simpa [AddNode, h0, h1] using h
  rcases h2 : env.ensureMember (env.NodeID pk) pk
      (applyOptions (env.NodeID pk) env.ConsensusPort opts).extraNames s1
    with ⟨_ | memberBytes, s2⟩
  · have h := AddNodePath.ensureMemberFailed _ _ _ _ h0 h1 h2
    simpa [AddNode, h0, h1, h2] using h
  rcases h3 : env.ParseCertificate caBytes with _ | caCert
  · have h := AddNodePath.parseCAFailed _ _ _ _ _ h0 h1 h2 h3
    simpa [AddNode, h0, h1, h2, h3] using h
  rcases h4 : env.ParseCertificate memberBytes with _ | memberCert
  · have h := AddNodePath.parseMemberFailed _ _ _ _ _ _ h0 h1 h2 h3 h4
    simpa [AddNode, h0, h1, h2, h3, h4] using h
  rcases h5 : env.MemberList s2 with ⟨_ | members, s3⟩
  · have h := AddNodePath.memberListFailed _ _ _ _ _ _ _ _ h0 h1 h2 h3 h4 h5
    simpa [AddNode, h0, h1, h2, h3, h4, h5] using h
  rcases h6 : env.crlGet s3 with ⟨_ | crl, s4⟩
  · have h := AddNodePath.crlFailed _ _ _ _ _ _ _ _ _ _ h0 h1 h2 h3 h4 h5 h6
    simpa [AddNode, h0, h1, h2, h3, h4, h5, h6] using h
  rcases h7 : (scanMembers (env.NodeID pk) members).newExists with _ | _
  · rcases h8 : env.MemberAddAsLearner
        [learnerURL (applyOptions (env.NodeID pk) env.ConsensusPort opts)] s4
      with ⟨_ | learner, s5⟩
    · have h := AddNodePath.addFailed _ _ _ _ _ _ _ _ _ _ _ _ h0 h1 h2 h3 h4 h5 h6 h7 h8
      simpa [AddNode, h0, h1, h2, h3, h4, h5, h6, h7, h8] using h
    · have h := AddNodePath.added _ _ _ _ _ _ _ _ _ _ _ _ h0 h1 h2 h3 h4 h5 h6 h7 h8
      simpa [AddNode, h0, h1, h2, h3, h4, h5, h6, h7, h8] using h
  · have h := AddNodePath.alreadyMember _ _ _ _ _ _ _ _ _ _ h0 h1 h2 h3 h4 h5 h6 h7
    simpa [AddNode, h0, h1, h2, h3, h4, h5, h6, h7] using h

/-- C2: when `AddNode` returns a bundle, its `ExistingNodes` is exactly, in
membership-list order, the name and first peer URL of every listed member
that is not a learner and has a peer URL; every entry comes from such a
member; and for a list of one non-learner member with a peer URL followed by
one learner it holds exactly the non-learner. -/
theorem AddNode_existingNodes {σ : Type} (env : ConsensusEnv σ) (pk : Bytes)
    (opts : List AddNodeOption) (s : σ) (jc : JoinCluster) (members : List Member)
    (hok : (AddNode env pk opts s).jc = some jc)
    (hlist : Event.MemberList (.ok members) ∈ (AddNode env pk opts s).events) :
    jc.ExistingNodes = votingPeers members ∧
    (∀ e ∈ jc.ExistingNodes, ∃ m ∈ members,
      m.IsLearner = false ∧ m.PeerURLs.head? = some e.URL ∧ m.Name = e.Name) ∧
    (∀ a b u us, members = [a, b] → a.IsLearner = false → a.PeerURLs = u :: us →
      b.IsLearner = true → jc.ExistingNodes = [{ Name := a.Name, URL := u }]) := by
  have hjc : jc.ExistingNodes = votingPeers members := by
    have hp := AddNode_path env pk opts s
    generalize AddNode env pk opts s = run at hp hok hlist
    cases hp <;> simp at hok hlist
    all_goals
      subst hok
      subst hlist
      exact scanMembers_existingNodes _ _
  refine ⟨hjc, ?_, ?_⟩
  · intro e he
    rw [hjc] at he
    simp only [votingPeers, List.mem_map, List.mem_filter] at he
    obtain ⟨m, ⟨hm, hcond⟩, rfl⟩ := he
    refine ⟨m, hm, ?_⟩
    rcases hu : m.PeerURLs with _ | ⟨u, us⟩ <;> simp [hu] at hcond ⊢
    exact hcond
  · intro a b u us hab ha hu hb
    rw [hjc, hab]
    simp [votingPeers, List.filter, ha, hu, hb]

/-- Witness for C2: against the sample store, with one voting member and one
learner, the bundle lists exactly the voting member. -/
theorem AddNode_existingNodes_witness :
    (AddNode (fakeEnv etcdLikeConfig) [7] [] sampleStore).jc =
      some { CACertificate := { Raw := [1], Fields := [] }
             NodeCertificate := { Raw := [2, 7], Fields := [] }
             ExistingNodes := [{ Name := "metropolis-1", URL := "https://metropolis-1:7834" }]
             InitialCRL := sampleStore.crl } ∧
    ({ Name := "metropolis-1", URL := "https://metropolis-1:7834" } : ExistingNode)
      ∈ votingPeers sampleStore.members :=
  have h := AddNode_existingNodes (fakeEnv etcdLikeConfig) [7] [] sampleStore
    { CACertificate := { Raw := [1], Fields := [] }
      NodeCertificate := { Raw := [2, 7], Fields := [] }
      ExistingNodes := [{ Name := "metropolis-1", URL := "https://metropolis-1:7834" }]
      InitialCRL := sampleStore.crl }
    sampleStore.members (by decide) (by decide)
  ⟨by decide, by rw [← h.1]; simp⟩

/-- C3: in a run of `AddNode` that reaches a successful membership listing and
a successful CRL retrieval (so that certificate issuance succeeded before),
`MemberAddAsLearner` is called once if no listed member is named by the node
ID of the public key, and not at all if some listed member, learner or
voting, carries that name. -/
theorem AddNode_adds_learner_iff_absent {σ : Type} (env : ConsensusEnv σ) (pk : Bytes)
    (opts : List AddNodeOption) (s : σ) (members : List Member) (crl : CRL)
    (hlist : Event.MemberList (.ok members) ∈ (AddNode env pk opts s).events)
    (hcrl : Event.crlGet (.ok crl) ∈ (AddNode env pk opts s).events) :
    (learnerAdds (AddNode env pk opts s).events = 1 ↔
      ¬ ∃ m ∈ members, m.Name = env.NodeID pk) ∧
    ((∃ m ∈ members, m.Name = env.NodeID pk) →
      learnerAdds (AddNode env pk opts s).events = 0) := by
  have hp := AddNode_path env pk opts s
  generalize AddNode env pk opts s = run at hp hlist hcrl
  cases hp with
  | alreadyMember caBytes s1 memberBytes s2 caCert memberCert ms s3 crl0 s4
      h0 h1 h2 h3 h4 h5 h6 h7 =>
    simp at hlist
    subst hlist
    have hex := (scanMembers_newExists _ _).1 h7
    simp [learnerAdds, Event.isMemberAddAsLearner, List.filter, hex]
  | addFailed caBytes s1 memberBytes s2 caCert memberCert ms s3 crl0 s4 err s5
      h0 h1 h2 h3 h4 h5 h6 h7 h8 =>
    simp at hlist
    subst hlist
    have hex : ¬ ∃ m ∈ members, m.Name = env.NodeID pk := by
      intro h
      have h9 := (scanMembers_newExists _ _).2 h
      simp [h7] at h9
    simp [learnerAdds, Event.isMemberAddAsLearner, List.filter, hex]
  | added caBytes s1 memberBytes s2 caCert memberCert ms s3 crl0 s4 learner s5
      h0 h1 h2 h3 h4 h5 h6 h7 h8 =>
    simp at hlist
    subst hlist
    have hex : ¬ ∃ m ∈ members, m.Name = env.NodeID pk := by
      intro h
      have h9 := (scanMembers_newExists _ _).2 h
      simp [h7] at h9
    simp [learnerAdds, Event.isMemberAddAsLearner, List.filter, hex]
  | _ => first | (simp at hlist; done) | simp at hcrl

/-- Witness for C3: no member of the sample store is named by the node ID of
the key `[7]`, and the learner is added once. -/
theorem AddNode_adds_learner_iff_absent_witness :
    learnerAdds (AddNode (fakeEnv etcdLikeConfig) [7] [] sampleStore).events = 1 :=
  (AddNode_adds_learner_iff_absent (fakeEnv etcdLikeConfig) [7] [] sampleStore
    sampleStore.members sampleStore.crl (by decide) (by decide)).1.2 (by decide)

/-- The name left by the option loop is the last non-empty external address,
or the node ID. -/
theorem applyOptions_name (nodeID : String) (defaultPort : Int) (opts : List AddNodeOption) :
    (applyOptions nodeID defaultPort opts).name = effectiveName nodeID opts := by
  induction opts using List.reverseRecOn with
  | nil => rfl
  | append_singleton l a ih =>
    have hstep : applyOptions nodeID defaultPort (l ++ [a])
        = applyOption (applyOptions nodeID defaultPort l) a := by
      simp [applyOptions, List.foldl_append]
    rw [hstep]
    unfold effectiveName at *
    rw [List.reverse_append]
    by_cases ha : a.externalAddress = "" <;> by_cases hp : a.externalPort = 0 <;>
      simp [applyOption, ha, hp, ih]

/-- The port left by the option loop is the last non-zero external port, or
the default port. -/
theorem applyOptions_port (nodeID : String) (defaultPort : Int) (opts : List AddNodeOption) :
    (applyOptions nodeID defaultPort opts).port = effectivePort defaultPort opts := by
  induction opts using List.reverseRecOn with
  | nil => rfl
  | append_singleton l a ih =>
    have hstep : applyOptions nodeID defaultPort (l ++ [a])
        = applyOption (applyOptions nodeID defaultPort l) a := by
      simp [applyOptions, List.foldl_append]
    rw [hstep]
    unfold effectivePort at *
    rw [List.reverse_append]
    by_cases ha : a.externalAddress = "" <;> by_cases hp : a.externalPort = 0 <;>
      simp [applyOption, ha, hp, ih]

/-- C5 as stated fails: with the external address `::1` the peer URL passed
to `MemberAddAsLearner` has the address in square brackets, which is not
`https://`, the address, a colon and the port. -/
theorem AddNode_learner_url_counterexample :
    Event.MemberAddAsLearner ["https://[::1]:7834"]
        (.ok { ID := 3, Name := "", PeerURLs := ["https://[::1]:7834"], IsLearner := true })
      ∈ (AddNode (fakeEnv etcdLikeConfig) [7]
          [{ externalAddress := "::1", externalPort := 0 }] sampleStore).events ∧
    "https://[::1]:7834" ≠ plainLearnerURL "::1" 7834 := by
  constructor <;> decide

/-- C5, amended: every call of `MemberAddAsLearner` made by `AddNode` passes
exactly one peer URL, `https://` followed by `net.JoinHostPort` of the name
and the decimal port, where the name is the node ID unless an option gives a
non-empty external address and the port is the default consensus port unless
an option gives a non-zero external port. That URL is `https://name:port`
when the name has no colon and `https://[name]:port` when it has one. -/
theorem AddNode_learner_url {σ : Type} (env : ConsensusEnv σ) (pk : Bytes)
    (opts : List AddNodeOption) (s : σ) (urls : List String) (r : Except GoError Member)
    (hcall : Event.MemberAddAsLearner urls r ∈ (AddNode env pk opts s).events) :
    urls = ["https://" ++ JoinHostPort (effectiveName (env.NodeID pk) opts)
              (Itoa (effectivePort env.ConsensusPort opts))] ∧
    (':' ∉ (effectiveName (env.NodeID pk) opts).data →
      urls = [plainLearnerURL (effectiveName (env.NodeID pk) opts)
                (effectivePort env.ConsensusPort opts)]) ∧
    (':' ∈ (effectiveName (env.NodeID pk) opts).data →
      urls = ["https://" ++ "[" ++ effectiveName (env.NodeID pk) opts ++ "]:" ++
                Itoa (effectivePort env.ConsensusPort opts)]) := by
  have hurl : urls = ["https://" ++ JoinHostPort (effectiveName (env.NodeID pk) opts)
      (Itoa (effectivePort env.ConsensusPort opts))] := by
    have hp := AddNode_path env pk opts s
    generalize AddNode env pk opts s = run at hp hcall
    cases hp <;> simp at hcall
    all_goals
      rw [hcall.1, learnerURL, applyOptions_name, applyOptions_port]
  refine ⟨hurl, ?_, ?_⟩
  · intro hc
    rw [hurl, JoinHostPort, if_neg hc, plainLearnerURL]
    simp [String.append_assoc]
  · intro hc
    rw [hurl, JoinHostPort, if_pos hc]
    simp only [String.append_assoc]

/-- Witness for C5: the URL passed for the key `[7]` with an external port. -/
theorem AddNode_learner_url_witness :
    ["https://metropolis-7:99"] = [plainLearnerURL "metropolis-7" 99] :=
  ((AddNode_learner_url (fakeEnv etcdLikeConfig) [7]
    [{ externalAddress := "", externalPort := 99 }] sampleStore
    ["https://metropolis-7:99"]
    (.ok { ID := 3, Name := "", PeerURLs := ["https://metropolis-7:99"], IsLearner := true })
    (by decide)).2.1 (by decide))

/-- C6: `AddNode` returns a bundle only together with a nil error, and
always returns one of the two. If ensuring the CA certificate, ensuring the
member certificate, parsing either issued certificate, or listing the
members fails, the call returns an error and no bundle and never calls
`MemberAddAsLearner`; if `MemberAddAsLearner` fails, the call returns an
error and no bundle. -/
theorem AddNode_failure_semantics {σ : Type} (env : ConsensusEnv σ) (pk : Bytes)
    (opts : List AddNodeOption) (s : σ) :
    ((AddNode env pk opts s).jc ≠ none → (AddNode env pk opts s).err = none) ∧
    ((AddNode env pk opts s).jc = none → (AddNode env pk opts s).err ≠ none) ∧
    (((∃ e, Event.ensureCA (.error e) ∈ (AddNode env pk opts s).events) ∨
      (∃ n k x e, Event.ensureMember n k x (.error e) ∈ (AddNode env pk opts s).events) ∨
      (∃ b e, Event.ensureCA (.ok b) ∈ (AddNode env pk opts s).events ∧
        env.ParseCertificate b = .error e) ∨
      (∃ n k x b e, Event.ensureMember n k x (.ok b) ∈ (AddNode env pk opts s).events ∧
        env.ParseCertificate b = .error e) ∨
      (∃ e, Event.MemberList (.error e) ∈ (AddNode env pk opts s).events)) →
      (AddNode env pk opts s).err ≠ none ∧ (AddNode env pk opts s).jc = none ∧
        learnerAdds (AddNode env pk opts s).events = 0) ∧
    ((∃ urls e, Event.MemberAddAsLearner urls (.error e) ∈ (AddNode env pk opts s).events) →
      (AddNode env pk opts s).err ≠ none ∧ (AddNode env pk opts s).jc = none) := by
  have hp := AddNode_path env pk opts s
  generalize AddNode env pk opts s = run at hp
  cases hp with
  | alreadyMember caBytes s1 memberBytes s2 caCert memberCert ms s3 crl0 s4
      h0 h1 h2 h3 h4 h5 h6 h7 =>
    simp [learnerAdds, Event.isMemberAddAsLearner, List.filter]
    constructor
    · intro e he; rw [he] at h3; cases h3
    · intro _ _ _ b _ _ _ hb e he; rw [hb, h4] at he; cases he
  | addFailed caBytes s1 memberBytes s2 caCert memberCert ms s3 crl0 s4 err s5
      h0 h1 h2 h3 h4 h5 h6 h7 h8 =>
    simp [learnerAdds, Event.isMemberAddAsLearner, List.filter]
    constructor
    · intro e he; rw [he] at h3; cases h3
    · intro _ _ _ b _ _ _ hb e he; rw [hb, h4] at he; cases he
  | added caBytes s1 memberBytes s2 caCert memberCert ms s3 crl0 s4 learner s5
      h0 h1 h2 h3 h4 h5 h6 h7 h8 =>
    simp [learnerAdds, Event.isMemberAddAsLearner, List.filter]
    constructor
    · intro e he; rw [he] at h3; cases h3
    · intro _ _ _ b _ _ _ hb e he; rw [hb, h4] at he; cases he
  | _ => simp [learnerAdds, Event.isMemberAddAsLearner, List.filter]

/-- Witness for C6: against a store whose membership listing fails, `AddNode`
returns an error and no bundle and adds no learner. -/
theorem AddNode_failure_semantics_witness :
    (AddNode brokenListEnv [7] [] sampleStore).err ≠ none ∧
    (AddNode brokenListEnv [7] [] sampleStore).jc = none ∧
    learnerAdds (AddNode brokenListEnv [7] [] sampleStore).events = 0 :=
  (AddNode_failure_semantics brokenListEnv [7] [] sampleStore).2.2.1
    (Or.inr (Or.inr (Or.inr (Or.inr
      ⟨.errorString "etcdserver: request timed out", by decide⟩))))

/-! ### AddNode against the fake store -/

/-- A memoized `Ensure` that finds the name returns the stored bytes and
leaves the store as it is. -/
theorem FakeStore.ensure_of_lookup (s : FakeStore) (name : String) (fresh b : Bytes)
    (h : s.certs.lookup name = some b) : s.ensure name fresh = (.ok b, s) := by
  simp [FakeStore.ensure, h]

/-- After a memoized `Ensure` the name is stored with the returned bytes, all
earlier certificates are still stored, and membership and CRL are untouched. -/
theorem FakeStore.ensure_spec (s t : FakeStore) (name : String) (fresh : Bytes)
    (r : Except GoError Bytes) (h : s.ensure name fresh = (r, t)) :
    ∃ b, r = .ok b ∧ t.certs.lookup name = some b ∧
      (∀ n c, s.certs.lookup n = some c → t.certs.lookup n = some c) ∧
      t.members = s.members ∧ t.crl = s.crl := by
  unfold FakeStore.ensure at h
  split at h
  · next b hb =>
    simp only [Prod.mk.injEq] at h
    obtain ⟨rfl, rfl⟩ := h
    exact ⟨b, rfl, hb, fun _ _ hc => hc, rfl, rfl⟩
  · next hb =>
    simp only [Prod.mk.injEq] at h
    obtain ⟨rfl, rfl⟩ := h
    refine ⟨fresh, rfl, ?_, ?_, rfl, rfl⟩
    · simp [List.lookup_append, hb, List.lookup]
    · intro n c hc
      simp [List.lookup_append, hc]

/-- A run of `AddNode` against a fake store that already holds both
certificates: the bundle carries the parsed stored certificates, and a
learner is added exactly when no listed member is named by the node ID. -/
theorem fake_AddNode_issued (cfg : FakeConfig) (pk : Bytes) (opts : List AddNodeOption)
    (s : FakeStore) (caBytes memberBytes : Bytes) (caCert memberCert : Certificate)
    (hca : s.certs.lookup cfg.caName = some caBytes)
    (hmem : s.certs.lookup (cfg.NodeID pk) = some memberBytes)
    (hpca : cfg.ParseCertificate caBytes = .ok caCert)
    (hpmem : cfg.ParseCertificate memberBytes = .ok memberCert) :
    (AddNode (fakeEnv cfg) pk opts s).jc =
      some ⟨caCert, memberCert, (scanMembers (cfg.NodeID pk) s.members).existingNodes, s.crl⟩ ∧
    (AddNode (fakeEnv cfg) pk opts s).err = none ∧
    ((scanMembers (cfg.NodeID pk) s.members).newExists = true →
      (AddNode (fakeEnv cfg) pk opts s).store = s ∧
      learnerAdds (AddNode (fakeEnv cfg) pk opts s).events = 0) ∧
    ((scanMembers (cfg.NodeID pk) s.members).newExists = false →
      (AddNode (fakeEnv cfg) pk opts s).store.members.length = s.members.length + 1) := by
  rcases hx : (scanMembers (cfg.NodeID pk) s.members).newExists with _ | _ <;>
    simp [AddNode, fakeEnv, FakeStore.ensure, FakeStore.addLearner, hca, hmem, hpca, hpmem, hx,
      learnerAdds, Event.isMemberAddAsLearner, List.filter]

/-- After a successful `AddNode` against a fake store, the final store holds
the CA certificate and the member certificate whose parsed forms are in the
returned bundle. -/
theorem fake_AddNode_store (cfg : FakeConfig) (pk : Bytes) (opts : List AddNodeOption)
    (s : FakeStore) (jc : JoinCluster)
    (hfirst : (AddNode (fakeEnv cfg) pk opts s).jc = some jc) :
    ∃ caBytes memberBytes,
      (AddNode (fakeEnv cfg) pk opts s).store.certs.lookup cfg.caName = some caBytes ∧
      (AddNode (fakeEnv cfg) pk opts s).store.certs.lookup (cfg.NodeID pk) = some memberBytes ∧
      cfg.ParseCertificate caBytes = .ok jc.CACertificate ∧
      cfg.ParseCertificate memberBytes = .ok jc.NodeCertificate := by
  have hp := AddNode_path (fakeEnv cfg) pk opts s
  generalize AddNode (fakeEnv cfg) pk opts s = run at hp hfirst
  cases hp with
  | alreadyMember caBytes s1 memberBytes s2 caCert memberCert ms s3 crl0 s4
      h0 h1 h2 h3 h4 h5 h6 h7 =>
    obtain ⟨b1, hb1, hl1, -, -, -⟩ := FakeStore.ensure_spec _ _ _ _ _ h1
    obtain ⟨b2, hb2, hl2, hk2, -, -⟩ := FakeStore.ensure_spec _ _ _ _ _ h2
    cases hb1
    cases hb2
    simp only [fakeEnv, Prod.mk.injEq, Except.ok.injEq] at h5 h6
    obtain ⟨-, rfl⟩ := h5
    obtain ⟨-, rfl⟩ := h6
    simp only [Option.some.injEq] at hfirst
    subst hfirst
    exact ⟨_, _, hk2 _ _ hl1, hl2, h3, h4⟩
  | added caBytes s1 memberBytes s2 caCert memberCert ms s3 crl0 s4 learner s5
      h0 h1 h2 h3 h4 h5 h6 h7 h8 =>
    obtain ⟨b1, hb1, hl1, -, -, -⟩ := FakeStore.ensure_spec _ _ _ _ _ h1
    obtain ⟨b2, hb2, hl2, hk2, -, -⟩ := FakeStore.ensure_spec _ _ _ _ _ h2
    cases hb1
    cases hb2
    simp only [fakeEnv, FakeStore.addLearner, Prod.mk.injEq, Except.ok.injEq] at h5 h6 h8
    obtain ⟨-, rfl⟩ := h5
    obtain ⟨-, rfl⟩ := h6
    obtain ⟨-, rfl⟩ := h8
    simp only [Option.some.injEq] at hfirst
    subst hfirst
    exact ⟨_, _, hk2 _ _ hl1, hl2, h3, h4⟩
  | _ => simp at hfirst

/-- Against a fake store that lists the added learner with its peer URL only
(an empty name, as etcd does until the member starts) and accepts a peer URL
twice, a second `AddNode` with the same key returns the same node
certificate and adds a second learner: four members after the second call,
three after the first. -/
theorem AddNode_retry_counterexample :
    (AddNode (fakeEnv etcdLikeConfig) [7] [] sampleStore).store.members.length = 3 ∧
    (AddNode (fakeEnv etcdLikeConfig) [7] []
      (AddNode (fakeEnv etcdLikeConfig) [7] [] sampleStore).store).store.members.length = 4 ∧
    ((AddNode (fakeEnv etcdLikeConfig) [7] []
      (AddNode (fakeEnv etcdLikeConfig) [7] [] sampleStore).store).jc.map
        JoinCluster.NodeCertificate) =
      ((AddNode (fakeEnv etcdLikeConfig) [7] [] sampleStore).jc.map
        JoinCluster.NodeCertificate) := by
  decide

/-- Retry against a store that lists the node by name: against a fake store
with memoized `Ensure`, after an `AddNode` that returned a bundle, a second
`AddNode` with the same key and options on the resulting store returns a
bundle with the same node certificate; and if the membership lists a member
named by the node ID, the second call adds no learner and leaves the member
count unchanged. -/
theorem AddNode_retry (cfg : FakeConfig) (pk : Bytes) (opts : List AddNodeOption)
    (s : FakeStore) (jc1 : JoinCluster)
    (hfirst : (AddNode (fakeEnv cfg) pk opts s).jc = some jc1) :
    ∃ jc2,
      (AddNode (fakeEnv cfg) pk opts (AddNode (fakeEnv cfg) pk opts s).store).jc = some jc2 ∧
      (AddNode (fakeEnv cfg) pk opts (AddNode (fakeEnv cfg) pk opts s).store).err = none ∧
      jc2.NodeCertificate = jc1.NodeCertificate ∧
      ((∃ m ∈ (AddNode (fakeEnv cfg) pk opts s).store.members, m.Name = cfg.NodeID pk) →
        (AddNode (fakeEnv cfg) pk opts (AddNode (fakeEnv cfg) pk opts s).store).store.members.length
          = (AddNode (fakeEnv cfg) pk opts s).store.members.length ∧
        learnerAdds
          (AddNode (fakeEnv cfg) pk opts (AddNode (fakeEnv cfg) pk opts s).store).events = 0) := by
  obtain ⟨caBytes, memberBytes, hca, hmem, hpca, hpmem⟩ :=
    fake_AddNode_store cfg pk opts s jc1 hfirst
  generalize (AddNode (fakeEnv cfg) pk opts s).store = t at hca hmem ⊢
  obtain ⟨hjc, herr, hyes, -⟩ :=
    fake_AddNode_issued cfg pk opts t caBytes memberBytes _ _ hca hmem hpca hpmem
  refine ⟨_, hjc, herr, rfl, ?_⟩
  intro hex
  have hx := (scanMembers_newExists (cfg.NodeID pk) t.members).2 hex
  obtain ⟨hstore, hadds⟩ := hyes hx
  exact ⟨by rw [hstore], hadds⟩

/-- An instance of the retry lemma: against a fake store that lists the
learner under the node ID, the second call leaves the three members of the
first. -/
theorem AddNode_retry_witness :
    (AddNode (fakeEnv namingConfig) [7] []
      (AddNode (fakeEnv namingConfig) [7] [] sampleStore).store).store.members.length = 3 := by
  obtain ⟨_, _, _, _, hyes⟩ := AddNode_retry namingConfig [7] [] sampleStore
    { CACertificate := { Raw := [1], Fields := [] }
      NodeCertificate := { Raw := [2, 7], Fields := [] }
      ExistingNodes := [{ Name := "metropolis-1", URL := "https://metropolis-1:7834" }]
      InitialCRL := sampleStore.crl } (by decide)
  exact (hyes (by decide)).1.trans (by decide)

/-- C4 fails on the code: `AddNode` recognises an earlier admission only by
the member name, while the add passes only the peer URL. In every run whose
listing holds no member named by the node ID, `MemberAddAsLearner` is called
with the peer URL of the node, also when a listed learner already has that
peer URL. So when the listing shows the learner of the first call with an
empty name, the second call adds again: a store that accepts the peer URL
twice then holds a second learner (four members, three after the first
call), and a store that refuses it makes the second call return an error and
no bundle. -/
theorem AddNode_retry_readds_learner :
    (∀ (σ : Type) (env : ConsensusEnv σ) (pk : Bytes) (opts : List AddNodeOption) (s : σ)
      (members : List Member) (crl : CRL),
      Event.MemberList (.ok members) ∈ (AddNode env pk opts s).events →
      Event.crlGet (.ok crl) ∈ (AddNode env pk opts s).events →
      (¬ ∃ m ∈ members, m.Name = env.NodeID pk) →
      ∃ r, Event.MemberAddAsLearner
        [learnerURL (applyOptions (env.NodeID pk) env.ConsensusPort opts)] r
          ∈ (AddNode env pk opts s).events) ∧
    ({ ID := 3, Name := "", PeerURLs := ["https://metropolis-7:7834"], IsLearner := true }
      : Member) ∈ (AddNode (fakeEnv etcdLikeConfig) [7] [] sampleStore).store.members ∧
    (AddNode (fakeEnv etcdLikeConfig) [7] [] sampleStore).store.members.length = 3 ∧
    Event.MemberAddAsLearner ["https://metropolis-7:7834"]
        (.ok { ID := 4, Name := "", PeerURLs := ["https://metropolis-7:7834"],
               IsLearner := true })
      ∈ (AddNode (fakeEnv etcdLikeConfig) [7] []
          (AddNode (fakeEnv etcdLikeConfig) [7] [] sampleStore).store).events ∧
    (AddNode (fakeEnv etcdLikeConfig) [7] []
      (AddNode (fakeEnv etcdLikeConfig) [7] [] sampleStore).store).store.members.length = 4 ∧
    (AddNode rejectingEnv [7] [] sampleStore).jc.isSome = true ∧
    (AddNode rejectingEnv [7] [] (AddNode rejectingEnv [7] [] sampleStore).store).jc = none ∧
    (AddNode rejectingEnv [7] [] (AddNode rejectingEnv [7] [] sampleStore).store).err
      = some (.wrapped "could not add new member as learner: "
          (.errorString "etcdserver: Peer URLs already exists")) := by
  refine ⟨?_, by decide, by decide, by decide, by decide, by decide, by decide, by decide⟩
  intro σ env pk opts s members crl hlist hcrl hno
  have hp := AddNode_path env pk opts s
  generalize AddNode env pk opts s = run at hp hlist hcrl
  cases hp with
  | alreadyMember caBytes s1 memberBytes s2 caCert memberCert ms s3 crl0 s4
      h0 h1 h2 h3 h4 h5 h6 h7 =>
    simp at hlist
    subst hlist
    exact absurd ((scanMembers_newExists _ _).1 h7) hno
  | addFailed caBytes s1 memberBytes s2 caCert memberCert ms s3 crl0 s4 err s5
      h0 h1 h2 h3 h4 h5 h6 h7 h8 =>
    exact ⟨.error err, by simp⟩
  | added caBytes s1 memberBytes s2 caCert memberCert ms s3 crl0 s4 learner s5
      h0 h1 h2 h3 h4 h5 h6 h7 h8 =>
    exact ⟨.ok learner, by simp⟩
  | _ => first | (simp at hlist; done) | simp at hcrl

/-! ### nodeLoad and nodeSave -/

/-- C7: for a valid node id, `nodeLoad` returns `errNodeNotFound`, a status
with code NotFound, when the gated get succeeds with zero records, and a
status with code Unavailable when the gated transaction fails with an error
that `rpcError` does not convert; the two codes differ. -/
theorem nodeLoad_notFound_vs_unavailable {σ : Type} (d : Deps) (l : Leadership σ)
    (id key : String) (s : σ) (hkey : d.nodeEtcdPrefixKey id = .ok key) :
    (∀ res s1 rest, l.txnAsLeader [.OpGet key] s = (.ok res, s1) →
      res.Responses = .ResponseRange [] :: rest →
      (nodeLoad d l id s).1 = .returned (none, some errNodeNotFound)) ∧
    errNodeNotFound.code = .NotFound ∧
    (∀ err s1, l.txnAsLeader [.OpGet key] s = (.error err, s1) → d.rpcError err = none →
      ∃ e, (nodeLoad d l id s).1 = .returned (none, some e) ∧ e.code = .Unavailable ∧
        e ≠ errNodeNotFound) ∧
    Code.NotFound ≠ Code.Unavailable := by
  refine ⟨?_, rfl, ?_, by decide⟩
  · intro res s1 rest hres hkvs
    simp [nodeLoad, hkey, hres, hkvs]
  · intro err s1 hres hrpc
    refine ⟨.status .Unavailable ("could not retrieve node " ++ id ++ ": " ++ err.Error),
      by simp [nodeLoad, hkey, hres, hrpc], rfl, ?_⟩
    simp [errNodeNotFound]

/-- Witness for C7: node `n1` against an empty fake store and against an
unreachable one. -/
theorem nodeLoad_notFound_vs_unavailable_witness :
    (nodeLoad sampleDeps fakeLeadership "n1" emptyKV).1
      = .returned (none, some errNodeNotFound) ∧
    ∃ e, (nodeLoad sampleDeps fakeLeadership "n1" (unreachableKV "connection refused")).1
        = .returned (none, some e) ∧ e.code = .Unavailable ∧ e ≠ errNodeNotFound :=
  ⟨(nodeLoad_notFound_vs_unavailable sampleDeps fakeLeadership "n1" "/nodes/n1" emptyKV
      (by decide)).1 { Responses := [.ResponseRange []] } emptyKV [] (by decide) (by decide),
   (nodeLoad_notFound_vs_unavailable sampleDeps fakeLeadership "n1" "/nodes/n1"
      (unreachableKV "connection refused") (by decide)).2.2.1
      (.errorString "connection refused") (unreachableKV "connection refused")
      (by decide) (by decide)⟩

/-- C8 fails for `nodeLoad`: for node `n1` and two store errors that are not
RPC statuses, `nodeLoad` returns two Unavailable statuses whose messages
differ, each ending in the text of the store error, while `nodeSave` returns
the same status for both. -/
theorem nodeLoad_leaks_store_error_text :
    (nodeLoad sampleDeps fakeLeadership "n1" (unreachableKV "connection refused")).1
      = .returned (none, some (.status .Unavailable
          "could not retrieve node n1: connection refused")) ∧
    (nodeLoad sampleDeps fakeLeadership "n1" (unreachableKV "request timed out")).1
      = .returned (none, some (.status .Unavailable
          "could not retrieve node n1: request timed out")) ∧
    (nodeLoad sampleDeps fakeLeadership "n1" (unreachableKV "connection refused")).1
      ≠ (nodeLoad sampleDeps fakeLeadership "n1" (unreachableKV "request timed out")).1 ∧
    (nodeSave sampleDeps fakeLeadership sampleNode (unreachableKV "connection refused")).1
      = some (.status .Unavailable "could not save updated node") ∧
    (nodeSave sampleDeps fakeLeadership sampleNode (unreachableKV "request timed out")).1
      = some (.status .Unavailable "could not save updated node") := by
  decide

/-- The status `nodeSave` returns for a store error that `rpcError` does not
convert is the same for every such error. -/
theorem nodeSave_error_independent {σ : Type} (d : Deps) (l1 l2 : Leadership σ) (n : Node)
    (key : String) (data : Bytes) (s t1 t2 : σ) (e1 e2 : GoError)
    (hkey : d.nodeEtcdPrefixKey (n.ID d) = .ok key)
    (hdata : d.protoMarshal n.proto = .ok data)
    (h1 : l1.txnAsLeader [.OpPut key data] s = (.error e1, t1)) (hr1 : d.rpcError e1 = none)
    (h2 : l2.txnAsLeader [.OpPut key data] s = (.error e2, t2)) (hr2 : d.rpcError e2 = none) :
    (nodeSave d l1 n s).1 = (nodeSave d l2 n s).1 ∧
    (nodeSave d l1 n s).1 = some (.status .Unavailable "could not save updated node") := by
  simp [nodeSave, hkey, hdata, h1, h2, hr1, hr2]

/-- A stored message with a consensus-member role is rejected by
`nodeUnmarshal` when one of its three encodings fails to parse. -/
theorem nodeUnmarshal_rejects (d : Deps) (data : Bytes) (msg : PbNode) (roles : PbNodeRoles)
    (cm : PbConsensusMember)
    (hmsg : d.protoUnmarshal data = .ok msg) (hroles : msg.Roles = some roles)
    (hcm : roles.ConsensusMember = some cm)
    (hfail : (∃ e, d.ParseCertificate cm.CaCertificate = .error e) ∨
      (∃ e, d.ParseCertificate cm.PeerCertificate = .error e) ∨
      (∃ e, d.ParseCRL cm.InitialCrl = .error e)) :
    ∃ e, nodeUnmarshal d data = .returned (none, some e) := by
  rcases hca : d.ParseCertificate cm.CaCertificate with e1 | c1
  · exact ⟨.wrapped "could not unmarshal consensus ca certificate: " e1,
      by simp [nodeUnmarshal, hmsg, hroles, hcm, hca]⟩
  rcases hpeer : d.ParseCertificate cm.PeerCertificate with e2 | c2
  · exact ⟨.wrapped "could not unmarshal consensus peer certificate: " e2,
      by simp [nodeUnmarshal, hmsg, hroles, hcm, hca, hpeer]⟩
  rcases hcrl : d.ParseCRL cm.InitialCrl with e3 | c3
  · exact ⟨.wrapped "could not unmarshal consensus crl: " e3,
      by simp [nodeUnmarshal, hmsg, hroles, hcm, hca, hpeer, hcrl]⟩
  simp [hca, hpeer, hcrl] at hfail

/-- C9: for a valid node id, when the gated get returns exactly one record
whose value is not a Node message, or is one whose consensus-member CA
certificate, peer certificate or CRL fails to parse, `nodeLoad` returns no
node and an error with code Unavailable, which is not `errNodeNotFound`. -/
theorem nodeLoad_corrupt_record {σ : Type} (d : Deps) (l : Leadership σ)
    (id key : String) (s s1 : σ) (res : TxnResponse) (kv : KeyValue) (rest : List ResponseOp)
    (hkey : d.nodeEtcdPrefixKey id = .ok key)
    (hres : l.txnAsLeader [.OpGet key] s = (.ok res, s1))
    (hkvs : res.Responses = .ResponseRange [kv] :: rest)
    (hbad : (∃ e, d.protoUnmarshal kv.Value = .error e) ∨
      (∃ msg roles cm, d.protoUnmarshal kv.Value = .ok msg ∧ msg.Roles = some roles ∧
        roles.ConsensusMember = some cm ∧
        ((∃ e, d.ParseCertificate cm.CaCertificate = .error e) ∨
         (∃ e, d.ParseCertificate cm.PeerCertificate = .error e) ∨
         (∃ e, d.ParseCRL cm.InitialCrl = .error e)))) :
    ∃ e, (nodeLoad d l id s).1 = .returned (none, some e) ∧
      e ≠ errNodeNotFound ∧ e.code = .Unavailable ∧ e.code ≠ .NotFound := by
  have hun : ∃ e, nodeUnmarshal d kv.Value = .returned (none, some e) := by
    rcases hbad with ⟨e, he⟩ | ⟨msg, roles, cm, hmsg, hroles, hcm, hfail⟩
    · exact ⟨.wrapped "could not unmarshal proto: " e, by simp [nodeUnmarshal, he]⟩
    · exact nodeUnmarshal_rejects d kv.Value msg roles cm hmsg hroles hcm hfail
  obtain ⟨e, he⟩ := hun
  refine ⟨.status .Unavailable "could not unmarshal node", ?_, ?_, rfl, ?_⟩
  · simp [nodeLoad, hkey, hres, hkvs, he]
  · simp [errNodeNotFound]
  · simp [GoError.code]

/-- Witness for C9: a stored record whose CA certificate does not parse. -/
theorem nodeLoad_corrupt_record_witness :
    ∃ e, (nodeLoad sampleDeps fakeLeadership "n1" (recordKV [43])).1
        = .returned (none, some e) ∧
      e ≠ errNodeNotFound ∧ e.code = .Unavailable ∧ e.code ≠ .NotFound :=
  nodeLoad_corrupt_record sampleDeps fakeLeadership "n1" "/nodes/n1" (recordKV [43])
    (recordKV [43]) { Responses := [.ResponseRange [{ Key := "/nodes/n1", Value := [43] }]] }
    { Key := "/nodes/n1", Value := [43] } [] (by decide) (by decide) (by decide)
    (Or.inr ⟨corruptMessage, _, _, by decide, rfl, rfl,
      Or.inl ⟨.errorString "x509: malformed certificate", by decide⟩⟩)

/-- C10: for a stored message with a consensus-member role, `nodeUnmarshal`
returns an error and no node if the CA certificate, the peer certificate or
the initial CRL fails to parse, and returns a node only if all three parse.
A message whose roles carry no consensus-member role is returned as a node
whatever the parsers do, and a message without a consensus-member role never
gets an error. -/
theorem nodeUnmarshal_certificate_errors (d : Deps) (data : Bytes) (msg : PbNode)
    (hmsg : d.protoUnmarshal data = .ok msg) :
    (∀ roles cm, msg.Roles = some roles → roles.ConsensusMember = some cm →
      (((∃ e, d.ParseCertificate cm.CaCertificate = .error e) ∨
        (∃ e, d.ParseCertificate cm.PeerCertificate = .error e) ∨
        (∃ e, d.ParseCRL cm.InitialCrl = .error e)) →
        ∃ e, nodeUnmarshal d data = .returned (none, some e)) ∧
      (∀ n r, nodeUnmarshal d data = .returned (some n, r) →
        (∃ c, d.ParseCertificate cm.CaCertificate = .ok c) ∧
        (∃ c, d.ParseCertificate cm.PeerCertificate = .ok c) ∧
        (∃ c, d.ParseCRL cm.InitialCrl = .ok c))) ∧
    (∀ roles, msg.Roles = some roles → roles.ConsensusMember = none →
      ∃ n, nodeUnmarshal d data = .returned (some n, none)) ∧
    ((∀ roles, msg.Roles = some roles → roles.ConsensusMember = none) →
      ∀ e, nodeUnmarshal d data ≠ .returned (none, some e)) := by
  refine ⟨?_, ?_, ?_⟩
  · intro roles cm hroles hcm
    refine ⟨nodeUnmarshal_rejects d data msg roles cm hmsg hroles hcm, ?_⟩
    intro n r hn
    rcases hca : d.ParseCertificate cm.CaCertificate with e1 | c1
    · simp [nodeUnmarshal, hmsg, hroles, hcm, hca] at hn
    rcases hpeer : d.ParseCertificate cm.PeerCertificate with e2 | c2
    · simp [nodeUnmarshal, hmsg, hroles, hcm, hca, hpeer] at hn
    rcases hcrl : d.ParseCRL cm.InitialCrl with e3 | c3
    · simp [nodeUnmarshal, hmsg, hroles, hcm, hca, hpeer, hcrl] at hn
    exact ⟨⟨_, rfl⟩, ⟨_, rfl⟩, ⟨_, rfl⟩⟩
  · intro roles hroles hcm
    simp [nodeUnmarshal, hmsg, hroles, hcm]
  · intro hno e
    rcases hroles : msg.Roles with _ | roles
    · simp [nodeUnmarshal, hmsg, hroles]
    · simp [nodeUnmarshal, hmsg, hroles, hno roles hroles]

/-- Witness for C10: the stored message with an unparsable CA certificate is
rejected. -/
theorem nodeUnmarshal_certificate_errors_witness :
    ∃ e, nodeUnmarshal sampleDeps [43] = .returned (none, some e) :=
  ((nodeUnmarshal_certificate_errors sampleDeps [43] corruptMessage (by decide)).1
    _ _ rfl rfl).1 (Or.inl ⟨.errorString "x509: malformed certificate", by decide⟩)

/-! ### Leadership-gated save, construction and role attachment -/

/-- The store `nodeSave` leaves behind is the store it was given or the store
the gate returned for the single put: `nodeSave` writes nothing by itself. -/
theorem nodeSave_store {σ : Type} (d : Deps) (l : Leadership σ) (n : Node) (s : σ) :
    (nodeSave d l n s).2 = s ∨
    ∃ key data, d.nodeEtcdPrefixKey (n.ID d) = .ok key ∧ d.protoMarshal n.proto = .ok data ∧
      (nodeSave d l n s).2 = (l.txnAsLeader [.OpPut key data] s).2 := by
  rcases hkey : d.nodeEtcdPrefixKey (n.ID d) with _ | key
  · left; simp [nodeSave, hkey]
  rcases hdata : d.protoMarshal n.proto with _ | data
  · left; simp [nodeSave, hkey, hdata]
  right
  refine ⟨key, data, rfl, rfl, ?_⟩
  rcases htxn : l.txnAsLeader [.OpPut key data] s with ⟨e | res, s1⟩
  · rcases hr : d.rpcError e with _ | r <;> simp [nodeSave, hkey, hdata, htxn, hr]
  · simp [nodeSave, hkey, hdata, htxn]

/-- C11: for every node, when the gate rejects the put because leadership is
stale (it answers with an error and leaves the store as it was, and the error
reaches RPC callers as Unavailable, converted by `rpcError` or not at all),
`nodeSave` returns an error with code Unavailable, the store after the call
is the store before it, and a read after the call gives what it gave before.
In every case the store `nodeSave` leaves is the given one or the one the
gate returned for the single put. -/
theorem nodeSave_stale_leadership {σ : Type} (d : Deps) (l : Leadership σ) (n : Node) (s : σ)
    (key : String) (data : Bytes) (err : GoError)
    (hkey : d.nodeEtcdPrefixKey (n.ID d) = .ok key)
    (hdata : d.protoMarshal n.proto = .ok data)
    (hstale : l.txnAsLeader [.OpPut key data] s = (.error err, s))
    (hclass : ∀ r, d.rpcError err = some r → r.code = .Unavailable) :
    (∃ e, (nodeSave d l n s).1 = some e ∧ e.code = .Unavailable) ∧
    (nodeSave d l n s).2 = s ∧
    (∀ id, nodeLoad d l id (nodeSave d l n s).2 = nodeLoad d l id s) ∧
    (∀ (m : Node) (t : σ), (nodeSave d l m t).2 = t ∨
      ∃ k b, (nodeSave d l m t).2 = (l.txnAsLeader [.OpPut k b] t).2) := by
  have hstore : (nodeSave d l n s).2 = s := by
    rcases hr : d.rpcError err with _ | r <;> simp [nodeSave, hkey, hdata, hstale, hr]
  refine ⟨?_, hstore, ?_, ?_⟩
  · rcases hr : d.rpcError err with _ | r
    · exact ⟨.status .Unavailable "could not save updated node",
        by simp [nodeSave, hkey, hdata, hstale, hr], rfl⟩
    · exact ⟨r, by simp [nodeSave, hkey, hdata, hstale, hr], hclass r hr⟩
  · intro id
    rw [hstore]
  · intro m t
    rcases nodeSave_store d l m t with h | ⟨k, b, -, -, h⟩
    · exact Or.inl h
    · exact Or.inr ⟨k, b, h⟩

/-- Witness for C11: saving the sample node through a fake gate that has lost
leadership fails with Unavailable and leaves the stored record as it was. -/
theorem nodeSave_stale_leadership_witness :
    (∃ e, (nodeSave sampleDeps fakeLeadership sampleNode staleKV).1 = some e ∧
      e.code = .Unavailable) ∧
    (nodeSave sampleDeps fakeLeadership sampleNode staleKV).2 = staleKV :=
  have h := nodeSave_stale_leadership sampleDeps fakeLeadership sampleNode staleKV
    "/nodes/metropolis-77" [42] (.errorString "lost leadership")
    (by decide) (by decide) (by decide) (by decide)
  ⟨h.1, h.2.1⟩

/-- C12: `NewNodeForBootstrap` returns a node in state UP, which is not NEW,
with the given cluster unlock key and public key, a nil status, and neither
the worker role nor the consensus-member role. -/
theorem NewNodeForBootstrap_spec (cuk pk : Bytes) :
    (NewNodeForBootstrap cuk pk).state = .NODE_STATE_UP ∧
    (NewNodeForBootstrap cuk pk).state ≠ .NODE_STATE_NEW ∧
    (NewNodeForBootstrap cuk pk).clusterUnlockKey = cuk ∧
    (NewNodeForBootstrap cuk pk).pubkey = pk ∧
    (NewNodeForBootstrap cuk pk).status = none ∧
    (NewNodeForBootstrap cuk pk).kubernetesWorker = none ∧
    (NewNodeForBootstrap cuk pk).consensusMember = none := by
  refine ⟨rfl, ?_, rfl, rfl, rfl, rfl, rfl⟩
  simp [NewNodeForBootstrap]

/-- The index loop of `EnableConsensusMember`, started after `pre.length`
filled peers, fills the remaining zero peers in order. -/
theorem consensusMemberPeers_loop (existing : List ExistingNode)
    (pre : List NodeRoleConsensusMemberPeer) (z : NodeRoleConsensusMemberPeer) :
    (existing.enumFrom pre.length).foldl
        (fun peers ie => peers.set ie.1 { Name := ie.2.Name, URL := ie.2.URL })
        (pre ++ List.replicate existing.length z)
      = pre ++ existing.map (fun e => { Name := e.Name, URL := e.URL }) := by
  induction existing generalizing pre with
  | nil => simp
  | cons e es ih =>
    have hset : (pre ++ z :: List.replicate es.length z).set pre.length
        { Name := e.Name, URL := e.URL }
        = (pre ++ [{ Name := e.Name, URL := e.URL }]) ++ List.replicate es.length z := by
      simp [List.set_append]
    have hlen : (pre ++ [({ Name := e.Name, URL := e.URL } : NodeRoleConsensusMemberPeer)]).length
        = pre.length + 1 := by simp
    simp only [List.enumFrom_cons, List.foldl_cons, List.length_cons, List.replicate_succ,
      List.map_cons]
    rw [hset, ← hlen, ih]
    simp

/-- The peers `EnableConsensusMember` attaches are the existing nodes, name
and URL, in order. -/
theorem consensusMemberPeers_eq_map (existing : List ExistingNode) :
    consensusMemberPeers existing
      = existing.map (fun e => { Name := e.Name, URL := e.URL }) := by
  have h := consensusMemberPeers_loop existing [] { Name := "", URL := "" }
  simpa [consensusMemberPeers, List.enum] using h

/-- C13: the role setters are idempotent wholesale replacements.
`EnableKubernetesWorker` attaches the worker role and
`EnableConsensusMember` installs a consensus-member role made of the bundle
alone (its certificates, its CRL, and its existing nodes as peers), whatever
role the node had before. Applying `EnableKubernetesWorker` twice gives the
node of one application, applying `EnableConsensusMember` with one bundle
twice gives the node of one application, and applying it with a first and
then a second bundle gives the node of the second bundle alone. -/
theorem Enable_idempotent (n : Node) (jc jc1 jc2 : JoinCluster) :
    n.EnableKubernetesWorker.kubernetesWorker = some {} ∧
    (n.EnableConsensusMember jc).consensusMember = some
      { CACertificate := jc.CACertificate
        PeerCertificate := jc.NodeCertificate
        CRL := jc.InitialCRL
        Peers := jc.ExistingNodes.map (fun e => { Name := e.Name, URL := e.URL }) } ∧
    (∀ m : Node, (m.EnableConsensusMember jc).consensusMember
      = (n.EnableConsensusMember jc).consensusMember) ∧
    ((n.EnableConsensusMember jc1).EnableConsensusMember jc2).consensusMember = some
      { CACertificate := jc2.CACertificate
        PeerCertificate := jc2.NodeCertificate
        CRL := jc2.InitialCRL
        Peers := jc2.ExistingNodes.map (fun e => { Name := e.Name, URL := e.URL }) } ∧
    n.EnableKubernetesWorker.EnableKubernetesWorker = n.EnableKubernetesWorker ∧
    (n.EnableConsensusMember jc).EnableConsensusMember jc = n.EnableConsensusMember jc ∧
    (n.EnableConsensusMember jc1).EnableConsensusMember jc2 = n.EnableConsensusMember jc2 := by
  refine ⟨rfl, ?_, fun _ => rfl, ?_, rfl, rfl, rfl⟩
  · simp [Node.EnableConsensusMember, consensusMemberPeers_eq_map]
  · simp [Node.EnableConsensusMember, consensusMemberPeers_eq_map]

/-- C14: after `EnableConsensusMember` the consensus-member role is present,
its peers are as many as the existing nodes of the bundle, the peer at each
index has the name and URL of the existing node at that index, and its CA
certificate, peer certificate and CRL are those of the bundle. -/
theorem EnableConsensusMember_spec (n : Node) (jc : JoinCluster) :
    ∃ cm, (n.EnableConsensusMember jc).consensusMember = some cm ∧
      cm.Peers.length = jc.ExistingNodes.length ∧
      (∀ (i : Nat) (e : ExistingNode), jc.ExistingNodes[i]? = some e →
        ∃ p : NodeRoleConsensusMemberPeer,
          cm.Peers[i]? = some p ∧ p.Name = e.Name ∧ p.URL = e.URL) ∧
      cm.CACertificate = jc.CACertificate ∧
      cm.PeerCertificate = jc.NodeCertificate ∧
      cm.CRL = jc.InitialCRL := by
  refine ⟨_, rfl, ?_, ?_, rfl, rfl, rfl⟩
  · simp [consensusMemberPeers_eq_map]
  · intro i e he
    simp [consensusMemberPeers_eq_map, he]

/-- C15: the ID of a node is a function of its public key alone, and each
role setter leaves the public key, the cluster unlock key, the lifecycle
state, the status and the other role as they were, so the ID is the same
before and after. -/
theorem Node_ID_stable (d : Deps) (n : Node) (jc : JoinCluster) :
    (∀ m : Node, m.pubkey = n.pubkey → m.ID d = n.ID d) ∧
    (n.EnableKubernetesWorker.pubkey = n.pubkey ∧
      n.EnableKubernetesWorker.clusterUnlockKey = n.clusterUnlockKey ∧
      n.EnableKubernetesWorker.state = n.state ∧
      n.EnableKubernetesWorker.status = n.status ∧
      n.EnableKubernetesWorker.consensusMember = n.consensusMember ∧
      n.EnableKubernetesWorker.ID d = n.ID d) ∧
    ((n.EnableConsensusMember jc).pubkey = n.pubkey ∧
      (n.EnableConsensusMember jc).clusterUnlockKey = n.clusterUnlockKey ∧
      (n.EnableConsensusMember jc).state = n.state ∧
      (n.EnableConsensusMember jc).status = n.status ∧
      (n.EnableConsensusMember jc).kubernetesWorker = n.kubernetesWorker ∧
      (n.EnableConsensusMember jc).ID d = n.ID d) := by
  refine ⟨?_, ⟨rfl, rfl, rfl, rfl, rfl, rfl⟩, ⟨rfl, rfl, rfl, rfl, rfl, rfl⟩⟩
  intro m hm
  simp [Node.ID, hm]

/-! ### ExtractString -/

/-- C16: `ExtractString` returns the empty string and an error for every
input shorter than four bytes, and two inputs of at least four bytes that
agree after their first four bytes give the same result. -/
theorem ExtractString_header (contents : Bytes) :
    (contents.length < 4 →
      ExtractString contents = ([], some (.errorString "contents too short."))) ∧
    (∀ other : Bytes, 4 ≤ contents.length → 4 ≤ other.length →
      other.drop 4 = contents.drop 4 → ExtractString other = ExtractString contents) := by
  constructor
  · intro h
    simp [ExtractString, h]
  · intro other h1 h2 hd
    have n1 : ¬ contents.length < 4 := by omega
    have n2 : ¬ other.length < 4 := by omega
    simp [ExtractString, n1, n2, hd]

/-- A character is not a surrogate. -/
theorem char_not_surrogate (c : Char) : utf16IsSurrogate c.toNat = false := by
  have h := c.valid
  simp only [UInt32.isValidChar, Nat.isValidChar] at h
  have hc : c.toNat = c.val.toNat := rfl
  simp only [utf16IsSurrogate, hc]
  rcases h with h | h
  · simp; omega
  · simp; omega

/-- The decoder reads the two bytes of a character of the Basic Multilingual
Plane as that character and goes on with the rest. -/
theorem utf16LEDecode_cons_bmp (c : Char) (hc : c.toNat < 0x10000) (rest : Bytes) :
    utf16LEDecode (c.toNat % 256 :: c.toNat / 256 :: rest)
      = utf8EncodeRune c.toNat ++ utf16LEDecode rest := by
  have hunit : utf16Unit (c.toNat % 256) (c.toNat / 256) = c.toNat := by
    unfold utf16Unit
    omega
  have hs := char_not_surrogate c
  match rest with
  | [] => simp [utf16LEDecode, hunit]
  | [b] => simp [utf16LEDecode, hunit]
  | b1 :: b2 :: rest2 => simp [utf16LEDecode, hunit, hs]

/-- The decoder turns the UTF-16 encoding of a string of the Basic
Multilingual Plane into the bytes of the string and goes on with the rest. -/
theorem utf16LEDecode_encode (cs : List Char) (hbmp : ∀ c ∈ cs, c.toNat < 0x10000)
    (rest : Bytes) :
    utf16LEDecode (cs.flatMap (fun c => [c.toNat % 256, c.toNat / 256]) ++ rest)
      = cs.flatMap (fun c => utf8EncodeRune c.toNat) ++ utf16LEDecode rest := by
  induction cs with
  | nil => simp
  | cons c cs ih =>
    have hc := hbmp c (List.mem_cons_self _ _)
    have hcs : ∀ c ∈ cs, c.toNat < 0x10000 := fun x hx => hbmp x (List.mem_cons_of_mem _ hx)
    simp only [List.flatMap_cons, List.cons_append, List.nil_append, List.append_assoc]
    rw [utf16LEDecode_cons_bmp c hc, ih hcs]

/-- The UTF-8 bytes of a rune other than NUL are not zero. -/
theorem utf8EncodeRune_nonzero (r : Nat) (hr : r ≠ 0) : 0 ∉ utf8EncodeRune r := by
  unfold utf8EncodeRune
  split_ifs <;> simp <;> omega

/-- Trimming the suffix `[0]` removes one trailing zero byte. -/
theorem bytesTrimSuffix_snoc (b : Bytes) : bytesTrimSuffix (b ++ [0]) [0] = b := by
  simp [bytesTrimSuffix]

/-- Trimming the suffix `[0]` leaves bytes without a zero as they are. -/
theorem bytesTrimSuffix_nonzero (b : Bytes) (h : 0 ∉ b) : bytesTrimSuffix b [0] = b := by
  unfold bytesTrimSuffix
  split
  · next hs =>
    exfalso
    have hsuf : [0] <:+ b := by simpa using hs
    exact h (hsuf.subset (List.mem_singleton_self 0))
  · rfl

/-- C17: for every string of characters of the Basic Multilingual Plane
without NUL and every four attribute bytes, `ExtractString` of the attribute
bytes, the UTF-16 little-endian encoding of the string and a 16-bit NUL
returns the string and no error, and so it does without the terminator. -/
theorem ExtractString_roundtrip (attr : Bytes) (s : String) (hattr : attr.length = 4)
    (hbmp : ∀ c ∈ s.data, c.toNat < 0x10000 ∧ c.toNat ≠ 0) :
    ExtractString (attr ++ utf16LEEncodeBMP s ++ [0, 0]) = (goStringBytes s, none) ∧
    ExtractString (attr ++ utf16LEEncodeBMP s) = (goStringBytes s, none) := by
  have hb : ∀ c ∈ s.data, c.toNat < 0x10000 := fun c hc => (hbmp c hc).1
  have hz : 0 ∉ goStringBytes s := by
    simp only [goStringBytes, List.mem_flatMap, not_exists, not_and]
    intro c hc
    exact utf8EncodeRune_nonzero _ (hbmp c hc).2
  have hterm : utf16LEDecode [0, 0] = [0] := by decide
  have hd1 : utf16LEDecode (utf16LEEncodeBMP s ++ [0, 0]) = goStringBytes s ++ [0] := by
    rw [utf16LEEncodeBMP, utf16LEDecode_encode _ hb, hterm, goStringBytes]
  have hd2 : utf16LEDecode (utf16LEEncodeBMP s) = goStringBytes s := by
    have h := utf16LEDecode_encode s.data hb []
    simpa [utf16LEEncodeBMP, goStringBytes, utf16LEDecode] using h
  constructor
  · have hlen : ¬ (attr ++ utf16LEEncodeBMP s ++ [0, 0]).length < 4 := by
      simp [hattr]
    have hdrop : (attr ++ utf16LEEncodeBMP s ++ [0, 0]).drop 4 = utf16LEEncodeBMP s ++ [0, 0] := by
      rw [List.append_assoc, ← hattr, List.drop_left]
    simp only [ExtractString, hlen, if_false, hdrop, hd1, bytesTrimSuffix_snoc]
  · have hlen : ¬ (attr ++ utf16LEEncodeBMP s).length < 4 := by
      simp [hattr]
    have hdrop : (attr ++ utf16LEEncodeBMP s).drop 4 = utf16LEEncodeBMP s := by
      rw [← hattr, List.drop_left]
    simp only [ExtractString, hlen, if_false, hdrop, hd2, bytesTrimSuffix_nonzero _ hz]

/-- Witness for C17: the string `A☺` behind four attribute bytes. -/
theorem ExtractString_roundtrip_witness :
    ExtractString ([7, 0, 0, 0] ++ utf16LEEncodeBMP "A☺" ++ [0, 0]) = (goStringBytes "A☺", none) ∧
    ExtractString ([7, 0, 0, 0] ++ utf16LEEncodeBMP "A☺") = (goStringBytes "A☺", none) :=
  ExtractString_roundtrip [7, 0, 0, 0] "A☺" (by decide) (by decide)

/-! ### CreateDevice and CreateSSHKey -/

/-- C18: for a request whose `HardwareReservationID` is empty, `CreateDevice`
returns no device and `ErrNoReservationProvided`, makes no API call, and
leaves the request, its tags included, as it was. -/
theorem CreateDevice_no_reservation {σ : Type} (wrap : Wrap σ Device) (cl : PackngoClient σ)
    (uuid : String) (r : DeviceCreateRequest) (w : ApiWorld σ)
    (h : r.HardwareReservationID = "") :
    (CreateDevice wrap cl uuid r w).device = none ∧
    (CreateDevice wrap cl uuid r w).err = some ErrNoReservationProvided ∧
    (CreateDevice wrap cl uuid r w).request = r ∧
    (CreateDevice wrap cl uuid r w).request.Tags = r.Tags ∧
    (CreateDevice wrap cl uuid r w).world.calls = w.calls ∧
    (CreateDevice wrap cl uuid r w).world.api = w.api := by
  simp [CreateDevice, h]

/-- Witness for C18: a request without reservation against the fake API. -/
theorem CreateDevice_no_reservation_witness :
    (CreateDevice (retryWrap (fun _ => false) 3) fakePackngo "u1"
      { Hostname := "h", HardwareReservationID := "", Tags := ["t"] } sampleEquinix).err
      = some ErrNoReservationProvided ∧
    (CreateDevice (retryWrap (fun _ => false) 3) fakePackngo "u1"
      { Hostname := "h", HardwareReservationID := "", Tags := ["t"] } sampleEquinix).world.calls
      = [] :=
  have h := CreateDevice_no_reservation (retryWrap (fun _ => false) 3) fakePackngo "u1"
    { Hostname := "h", HardwareReservationID := "", Tags := ["t"] } sampleEquinix rfl
  ⟨h.2.1, h.2.2.2.2.1⟩

/-- The tag map reads true exactly for the tags of the device. -/
theorem tagSet_eq (tags : List String) (t : String) : tagSet tags t = decide (t ∈ tags) := by
  have h : ∀ (m : String → Bool),
      tags.foldl (fun m tag => fun t => if t = tag then true else m t) m t
        = (decide (t ∈ tags) || m t) := by
    induction tags with
    | nil => intro m; simp
    | cons a as ih =>
      intro m
      rw [List.foldl_cons, ih]
      by_cases hta : t = a <;> simp [hta]
  simpa [tagSet] using h (fun _ => false)

/-- C19 as stated fails: against a reservation that already holds a device of
another user, `CreateDevice` returns `ErrRaceLost` after a single lookup,
with no retry and no call of `Devices.Create`. -/
theorem CreateDevice_race_lost_counterexample :
    (CreateDevice (retryWrap (fun _ => false) 0) fakePackngo "u1"
      { Hostname := "h", HardwareReservationID := "res-1", Tags := [] } sampleEquinix).err
      = some ErrRaceLost ∧
    (CreateDevice (retryWrap (fun _ => false) 0) fakePackngo "u1"
      { Hostname := "h", HardwareReservationID := "res-1", Tags := [] } sampleEquinix).device
      = none ∧
    (CreateDevice (retryWrap (fun _ => false) 0) fakePackngo "u1"
      { Hostname := "h", HardwareReservationID := "res-1", Tags := [] } sampleEquinix).world.calls
      = [.HardwareReservationsGet "res-1"] := by
  decide

/-- An attempt of `CreateDevice` returns `ErrRaceLost` exactly when the
lookup reports a device whose tags do not contain the witness tag. -/
theorem createDeviceAttempt_raceLost {σ : Type} (cl : PackngoClient σ)
    (r : DeviceCreateRequest) (tag : String) (w : ApiWorld σ) :
    (createDeviceAttempt cl r tag w).1.2 = some ErrRaceLost ↔
      ∃ res dev s1, cl.HardwareReservationsGet r.HardwareReservationID w.api
          = (.ok (some res), s1) ∧ res.Device = some dev ∧ tag ∉ dev.Tags := by
  rcases hget : cl.HardwareReservationsGet r.HardwareReservationID w.api
    with ⟨err | _ | res, s1⟩
  · simp [createDeviceAttempt, hget, ErrRaceLost]
  · simp [createDeviceAttempt, hget, ErrRaceLost]
  · rcases hdev : res.Device with _ | dev
    · rcases hc : cl.DevicesCreate r s1 with ⟨_ | dev, s2⟩ <;>
        simp [createDeviceAttempt, hget, hdev, hc, ErrRaceLost]
    · by_cases ht : tag ∈ dev.Tags <;>
        simp [createDeviceAttempt, hget, hdev, tagSet_eq, ht]

/-- The retrying test double of `wrap` returns an error only if an attempt it
ran returned that error. -/
theorem retryWrap_error {σ α : Type} (isPermanent : GoError → Bool) (retries : Nat)
    (fn : Attempt σ α) (w : ApiWorld σ) (e : GoError)
    (h : (retryWrap isPermanent retries fn w).1.2 = some e) :
    ∃ v, (fn v).1.2 = some e := by
  induction retries generalizing w with
  | zero =>
    unfold retryWrap at h
    rcases hf : fn w with ⟨⟨v, _ | e1⟩, w1⟩
    · simp [hf] at h
    · simp only [hf, Option.some.injEq] at h
      exact ⟨w, by rw [hf, ← h]⟩
  | succ n ih =>
    unfold retryWrap at h
    rcases hf : fn w with ⟨⟨v, _ | e1⟩, w1⟩
    · simp [hf] at h
    · simp only [hf] at h
      by_cases hp : isPermanent e1 = true
      · simp only [hp, if_true, Option.some.injEq] at h
        exact ⟨w, by rw [hf, ← h]⟩
      · simp only [hp, if_false] at h
        exact ih _ h

/-- C19, amended: `CreateDevice` with a reservation runs, through `wrap`,
attempts for the request extended by the witness tag of the call. In every
attempt, the first included, when the lookup reports an existing device the
attempt makes no further call and returns that device if its tags contain
the witness tag and `ErrRaceLost` with no device otherwise; when the lookup
reports no device the attempt calls `Devices.Create` once; and an attempt
returns `ErrRaceLost` exactly when the lookup reports a device without the
witness tag. If `wrap` returns `ErrRaceLost` only when an attempt it ran
returned it, `CreateDevice` returns `ErrRaceLost` only if in some attempt
the lookup of the reservation reported a device without the witness tag of
this call. -/
theorem CreateDevice_attempt {σ : Type} (wrap : Wrap σ Device) (cl : PackngoClient σ)
    (uuid : String) (r : DeviceCreateRequest) (tag : String) (w : ApiWorld σ) :
    (r.HardwareReservationID ≠ "" →
      (CreateDevice wrap cl uuid r w).request
        = { r with Tags := r.Tags ++ ["wrapngo-idempotency-" ++ uuid] } ∧
      ((CreateDevice wrap cl uuid r w).device, (CreateDevice wrap cl uuid r w).err)
        = (wrap (createDeviceAttempt cl
            { r with Tags := r.Tags ++ ["wrapngo-idempotency-" ++ uuid] }
            ("wrapngo-idempotency-" ++ uuid)) w).1) ∧
    (∀ res dev s1, cl.HardwareReservationsGet r.HardwareReservationID w.api
        = (.ok (some res), s1) → res.Device = some dev →
      (createDeviceAttempt cl r tag w).2.calls
        = w.calls ++ [.HardwareReservationsGet r.HardwareReservationID] ∧
      (tag ∈ dev.Tags → (createDeviceAttempt cl r tag w).1 = (some dev, none)) ∧
      (tag ∉ dev.Tags → (createDeviceAttempt cl r tag w).1 = (none, some ErrRaceLost))) ∧
    (∀ res s1, cl.HardwareReservationsGet r.HardwareReservationID w.api
        = (.ok (some res), s1) → res.Device = none →
      (createDeviceAttempt cl r tag w).2.calls
        = w.calls ++ [.HardwareReservationsGet r.HardwareReservationID, .DevicesCreate r]) ∧
    ((createDeviceAttempt cl r tag w).1.2 = some ErrRaceLost ↔
      ∃ res dev s1, cl.HardwareReservationsGet r.HardwareReservationID w.api
          = (.ok (some res), s1) ∧ res.Device = some dev ∧ tag ∉ dev.Tags) ∧
    ((∀ (fn : Attempt σ Device) (v : ApiWorld σ), (wrap fn v).1.2 = some ErrRaceLost →
        ∃ v1, (fn v1).1.2 = some ErrRaceLost) →
      (CreateDevice wrap cl uuid r w).err = some ErrRaceLost →
      ∃ (v1 : ApiWorld σ) (res : HardwareReservation) (dev : Device) (s1 : σ),
        cl.HardwareReservationsGet r.HardwareReservationID v1.api = (.ok (some res), s1) ∧
        res.Device = some dev ∧ ("wrapngo-idempotency-" ++ uuid) ∉ dev.Tags) := by
  refine ⟨?_, ?_, ?_, createDeviceAttempt_raceLost cl r tag w, ?_⟩
  · intro h
    simp [CreateDevice, h]
  · intro res dev s1 hget hdev
    by_cases ht : tag ∈ dev.Tags <;>
      simp [createDeviceAttempt, hget, hdev, tagSet_eq, ht]
  · intro res s1 hget hdev
    rcases hc : cl.DevicesCreate r s1 with ⟨_ | dev, s2⟩ <;>
      simp [createDeviceAttempt, hget, hdev, hc]
  · intro hwrap herr
    by_cases h : r.HardwareReservationID = ""
    · simp [CreateDevice, h, ErrNoReservationProvided, ErrRaceLost] at herr
    · have herr2 : (wrap (createDeviceAttempt cl
          { r with Tags := r.Tags ++ ["wrapngo-idempotency-" ++ uuid] }
          ("wrapngo-idempotency-" ++ uuid)) w).1.2 = some ErrRaceLost := by
        simpa [CreateDevice, h] using herr
      obtain ⟨v1, hv⟩ := hwrap _ _ herr2
      exact ⟨v1, (createDeviceAttempt_raceLost cl
        { r with Tags := r.Tags ++ ["wrapngo-idempotency-" ++ uuid] }
        ("wrapngo-idempotency-" ++ uuid) v1).1 hv⟩

/-- Witness for C19: against the reservation that another user holds, the
call through the retrying test double returns `ErrRaceLost`, and so some
lookup reported a device without the witness tag. -/
theorem CreateDevice_attempt_witness :
    ∃ (v1 : ApiWorld FakeEquinix) (res : HardwareReservation) (dev : Device)
      (s1 : FakeEquinix),
      fakePackngo.HardwareReservationsGet "res-1" v1.api = (.ok (some res), s1) ∧
      res.Device = some dev ∧ ("wrapngo-idempotency-" ++ "u1") ∉ dev.Tags :=
  (CreateDevice_attempt (retryWrap (fun _ => false) 2) fakePackngo "u1"
    { Hostname := "h", HardwareReservationID := "res-1", Tags := [] } "t" sampleEquinix).2.2.2.2
    (fun fn v h => retryWrap_error (fun _ => false) 2 fn v ErrRaceLost h)
    (by decide)

/-- The key loop returns from the first key that carries the label of the
request: that key if its material is that of the request, an error if not. -/
theorem findSSHKey_eq (r : SSHKeyCreateRequest) (ks : List SSHKey) :
    findSSHKey r ks = (firstWithLabel ks r.Label).map (fun k =>
      if k.Key ≠ r.Key then
        (none, some (.errorString "key label already in use for a different key"))
      else (some k, none)) := by
  induction ks with
  | nil => rfl
  | cons k ks ih =>
    by_cases hl : k.Label = r.Label
    · by_cases hk : k.Key = r.Key <;> simp [findSSHKey, firstWithLabel, hl, hk]
    · simpa [findSSHKey, firstWithLabel, hl] using ih

/-- An attempt of `CreateSSHKey` against the fake API. -/
theorem fake_createSSHKeyAttempt (r : SSHKeyCreateRequest) (w : ApiWorld FakeEquinix) :
    createSSHKeyAttempt fakePackngo r w =
      match findSSHKey r w.api.keys with
      | some res => (res, ⟨w.api, w.calls ++ [.SSHKeysList]⟩)
      | none =>
        ((some { ID := toString w.api.keys.length, Label := r.Label, Key := r.Key }, none),
          ⟨{ w.api with keys := w.api.keys ++
              [{ ID := toString w.api.keys.length, Label := r.Label, Key := r.Key }] },
            w.calls ++ [.SSHKeysList, .SSHKeysCreate r]⟩) := by
  unfold createSSHKeyAttempt
  simp only [fakePackngo]

/-- A `CreateSSHKey` that returned a key against the fake API leaves a store
whose first key with the label of the request is the returned key, with the
key material of the request. -/
theorem fake_CreateSSHKey_stored (isPermanent : GoError → Bool) (r : SSHKeyCreateRequest)
    (retries : Nat) (w w1 : ApiWorld FakeEquinix) (k : SSHKey)
    (h : CreateSSHKey (retryWrap isPermanent retries) fakePackngo r w = ((some k, none), w1)) :
    firstWithLabel w1.api.keys r.Label = some k ∧ k.Key = r.Key := by
  unfold CreateSSHKey at h
  induction retries generalizing w with
  | zero =>
    unfold retryWrap at h
    rw [fake_createSSHKeyAttempt, findSSHKey_eq] at h
    rcases hf : firstWithLabel w.api.keys r.Label with _ | k0
    · simp only [hf, Option.map_none'] at h
      simp only [Prod.mk.injEq, Option.some.injEq, and_true] at h
      obtain ⟨rfl, rfl⟩ := h
      simp only [firstWithLabel] at hf ⊢
      simp [List.find?_append, hf]
    · by_cases hk : k0.Key = r.Key
      · simp [hf, hk] at h
        obtain ⟨rfl, rfl⟩ := h
        exact ⟨hf, hk⟩
      · simp [hf, hk] at h
  | succ n ih =>
    unfold retryWrap at h
    rw [fake_createSSHKeyAttempt, findSSHKey_eq] at h
    rcases hf : firstWithLabel w.api.keys r.Label with _ | k0
    · simp only [hf, Option.map_none'] at h
      simp only [Prod.mk.injEq, Option.some.injEq, and_true] at h
      obtain ⟨rfl, rfl⟩ := h
      simp only [firstWithLabel] at hf ⊢
      simp [List.find?_append, hf]
    · by_cases hk : k0.Key = r.Key
      · simp [hf, hk] at h
        obtain ⟨rfl, rfl⟩ := h
        exact ⟨hf, hk⟩
      · simp only [hf, Option.map_some', hk, ne_eq, not_false_eq_true, if_true] at h
        split at h
        · simp at h
        · exact ih _ h

/-- A `CreateSSHKey` against a fake store whose first key with the label has
the key material of the request returns that key after one listing. -/
theorem fake_CreateSSHKey_found (isPermanent : GoError → Bool) (r : SSHKeyCreateRequest)
    (retries : Nat) (w : ApiWorld FakeEquinix) (k : SSHKey)
    (hf : firstWithLabel w.api.keys r.Label = some k) (hk : k.Key = r.Key) :
    CreateSSHKey (retryWrap isPermanent retries) fakePackngo r w
      = ((some k, none), ⟨w.api, w.calls ++ [.SSHKeysList]⟩) := by
  unfold CreateSSHKey
  cases retries <;>
    simp [retryWrap, fake_createSSHKeyAttempt, findSSHKey_eq, hf, hk]

/-- C20 as stated fails: the listing holds a key with the label and the key
material of the request, behind another key with the same label, and
`CreateSSHKey` returns an error and no key. -/
theorem CreateSSHKey_counterexample :
    ({ ID := "1", Label := "ops", Key := "ssh-ed25519 BBBB" } : SSHKey)
      ∈ sampleEquinix.api.keys ∧
    (CreateSSHKey (retryWrap (fun _ => false) 3) fakePackngo
      { Label := "ops", Key := "ssh-ed25519 BBBB" } sampleEquinix).1
      = (none, some (.errorString "key label already in use for a different key")) := by
  decide

/-- C20, amended: an attempt of `CreateSSHKey` is decided by the first key of
the listing that carries the label of the request. If that key has the key
material of the request the attempt returns it with no error and does not
call `SSHKeys.Create`; if it has other key material the attempt returns an
error and does not create; if no key carries the label the attempt calls
`SSHKeys.Create` once. Over a model key store, after a call that returned a
key, a second call with the same label and key returns the same key with no
error, makes no `SSHKeys.Create` call and leaves the number of stored keys
unchanged. -/
theorem CreateSSHKey_idempotent {σ : Type} (cl : PackngoClient σ) (r : SSHKeyCreateRequest)
    (w : ApiWorld σ) (isPermanent : GoError → Bool) (retries : Nat)
    (v : ApiWorld FakeEquinix) :
    (∀ ks s1 k, cl.SSHKeysList w.api = (.ok ks, s1) → firstWithLabel ks r.Label = some k →
      (createSSHKeyAttempt cl r w).2.calls = w.calls ++ [.SSHKeysList] ∧
      (k.Key = r.Key → (createSSHKeyAttempt cl r w).1 = (some k, none)) ∧
      (k.Key ≠ r.Key → (createSSHKeyAttempt cl r w).1.1 = none ∧
        (createSSHKeyAttempt cl r w).1.2 ≠ none)) ∧
    (∀ ks s1, cl.SSHKeysList w.api = (.ok ks, s1) → firstWithLabel ks r.Label = none →
      (createSSHKeyAttempt cl r w).2.calls = w.calls ++ [.SSHKeysList, .SSHKeysCreate r]) ∧
    (∀ k, (CreateSSHKey (retryWrap isPermanent retries) fakePackngo r v).1 = (some k, none) →
      (CreateSSHKey (retryWrap isPermanent retries) fakePackngo r
        (CreateSSHKey (retryWrap isPermanent retries) fakePackngo r v).2).1 = (some k, none) ∧
      (CreateSSHKey (retryWrap isPermanent retries) fakePackngo r
        (CreateSSHKey (retryWrap isPermanent retries) fakePackngo r v).2).2.api.keys.length
        = (CreateSSHKey (retryWrap isPermanent retries) fakePackngo r v).2.api.keys.length ∧
      (CreateSSHKey (retryWrap isPermanent retries) fakePackngo r
        (CreateSSHKey (retryWrap isPermanent retries) fakePackngo r v).2).2.calls
        = (CreateSSHKey (retryWrap isPermanent retries) fakePackngo r v).2.calls
            ++ [.SSHKeysList]) := by
  refine ⟨?_, ?_, ?_⟩
  · intro ks s1 k hl hf
    by_cases hk : k.Key = r.Key <;>
      simp [createSSHKeyAttempt, hl, findSSHKey_eq, hf, hk]
  · intro ks s1 hl hf
    rcases hc : cl.SSHKeysCreate r s1 with ⟨_ | k, s2⟩ <;>
      simp [createSSHKeyAttempt, hl, findSSHKey_eq, hf, hc]
  · intro k h
    obtain ⟨hf, hk⟩ := fake_CreateSSHKey_stored isPermanent r retries v
      (CreateSSHKey (retryWrap isPermanent retries) fakePackngo r v).2 k
      (Prod.ext h rfl)
    rw [fake_CreateSSHKey_found isPermanent r retries _ k hf hk]
    exact ⟨rfl, rfl, rfl⟩

/-! ### Storage manager and filesystem placement -/

/-- C21: with distinct `PlaceESP` and `PlaceData`, `GetPathInPlace` returns
for `PlaceESP` the path joined to the ESP data directory and no error,
whatever `dataReady` is; for `PlaceData` the path joined to the data mount
point and no error if `dataReady` is set, and the empty path with
`ErrNotInitialized` otherwise; for any other place the empty path with
`ErrUnknownPlace`. In every case the manager after the call is the manager
before it. -/
theorem GetPathInPlace_spec (decls : StorageDecls) (s : Manager) (place : Nat) (path : String)
    (hdistinct : decls.PlaceESP ≠ decls.PlaceData) :
    (place = decls.PlaceESP →
      (s.GetPathInPlace decls place path).1 = (decls.filepathJoin espDataPath path, none)) ∧
    (place = decls.PlaceData → s.dataReady = true →
      (s.GetPathInPlace decls place path).1 = (decls.filepathJoin dataMountPath path, none)) ∧
    (place = decls.PlaceData → s.dataReady = false →
      (s.GetPathInPlace decls place path).1 = ("", some decls.ErrNotInitialized)) ∧
    (place ≠ decls.PlaceESP → place ≠ decls.PlaceData →
      (s.GetPathInPlace decls place path).1 = ("", some decls.ErrUnknownPlace)) ∧
    (s.GetPathInPlace decls place path).2 = s := by
  refine ⟨?_, ?_, ?_, ?_, ?_⟩
  · intro h
    simp [Manager.GetPathInPlace, h]
  · intro h hr
    have hne : ¬ decls.PlaceData = decls.PlaceESP := fun e => hdistinct e.symm
    simp [Manager.GetPathInPlace, h, hne, hr]
  · intro h hr
    have hne : ¬ decls.PlaceData = decls.PlaceESP := fun e => hdistinct e.symm
    simp [Manager.GetPathInPlace, h, hne, hr]
  · intro h1 h2
    simp [Manager.GetPathInPlace, h1, h2]
  · obtain ⟨ready, ie, readers⟩ := s
    cases ready <;>
      (unfold Manager.GetPathInPlace
       split_ifs <;> simp)

/-- Witness for C21: the data place before the data partition is mounted. -/
theorem GetPathInPlace_spec_witness :
    (Manager.GetPathInPlace sampleStorageDecls
      { dataReady := false, initializationError := none, mutexReaders := 0 } 1 "etcd").1
      = ("", some sampleStorageDecls.ErrNotInitialized) :=
  (GetPathInPlace_spec sampleStorageDecls
    { dataReady := false, initializationError := none, mutexReaders := 0 } 1 "etcd"
    (by decide)).2.2.1 rfl rfl

/-- C23 fails on the code: the paths `PlaceFS` hands out do not depend on the
root. For the root `/mnt` the top-level element is placed at `/`, not at the
root, and the child `etc` of the top level is placed at `/etc`, which does
not lie under `/mnt`; only `RootRef` refers to the given root. -/
theorem PlaceFS_ignores_root :
    (∀ root parent this : String,
      (PlaceFS.dp root parent this).FullPath = pathFor parent this ∧
      (PlaceFS.fp root parent this).FullPath = pathFor parent this ∧
      (PlaceFS.dp root parent this).RootRef = { root := root } ∧
      (PlaceFS.fp root parent this).RootRef = { root := root }) ∧
    (PlaceFS.dp "/mnt" "" "").FullPath = "/" ∧
    (PlaceFS.dp "/mnt" "" "").FullPath ≠ "/mnt" ∧
    (PlaceFS.dp "/mnt" "/" "etc").FullPath = "/etc" ∧
    ¬ liesUnder "/mnt" (PlaceFS.dp "/mnt" "/" "etc").FullPath ∧
    ¬ liesUnder "/mnt" (PlaceFS.fp "/mnt" "/etc" "hosts").FullPath := by
  refine ⟨fun _ _ _ => ⟨rfl, rfl, rfl, rfl⟩, ?_, ?_, ?_, ?_, ?_⟩ <;> decide

/-! ### Disk key derivation -/

/-- After the first `n` iterations of the key loop the key holds the XOR of
the first `n` bytes of both parts, followed by zeroes. -/
theorem deriveDiskKey_loop (l g : Bytes) (hl : ∀ b ∈ l, b < 256) (hg : ∀ b ∈ g, b < 256)
    (n : Nat) (hn : n ≤ keySize) (hnl : n ≤ l.length) (hng : n ≤ g.length) :
    (List.range n).foldl (xorKeyStep l g) (.returned (List.replicate keySize 0))
      = .returned (xorBytes (l.take n) (g.take n) ++ List.replicate (keySize - n) 0) := by
  induction n with
  | zero => simp [xorBytes]
  | succ n ih =>
    have hln : n < l.length := by omega
    have hgn : n < g.length := by omega
    rw [List.range_succ, List.foldl_append, ih (by omega) (by omega) (by omega)]
    have hlen : (xorBytes (l.take n) (g.take n)).length = n := by
      simp [xorBytes]
      omega
    have hrep : List.replicate (keySize - n) 0 = 0 :: List.replicate (keySize - (n + 1)) 0 := by
      have : keySize - n = (keySize - (n + 1)) + 1 := by omega
      rw [this, List.replicate_succ]
    have hlt : l[n] ^^^ g[n] < 256 :=
      Nat.xor_lt_two_pow (n := 8) (hl _ (List.getElem_mem _)) (hg _ (List.getElem_mem _))
    have htake : xorBytes (l.take (n + 1)) (g.take (n + 1))
        = xorBytes (l.take n) (g.take n) ++ [l[n] ^^^ g[n]] := by
      have h1 : l.take (n + 1) = l.take n ++ [l[n]] := by
        rw [List.take_succ, List.getElem?_eq_getElem hln]; rfl
      have h2 : g.take (n + 1) = g.take n ++ [g[n]] := by
        rw [List.take_succ, List.getElem?_eq_getElem hgn]; rfl
      have hsame : (l.take n).length = (g.take n).length := by
        simp only [List.length_take]
        omega
      rw [h1, h2, xorBytes, xorBytes, List.zipWith_append _ _ _ _ _ hsame]
      rfl
    simp only [List.foldl_cons, List.foldl_nil, xorKeyStep, List.getElem?_eq_getElem hln,
      List.getElem?_eq_getElem hgn]
    rw [hrep, htake, Nat.mod_eq_of_lt hlt]
    congr 1
    rw [List.set_append]
    simp [hlen]

/-- The derived key of two byte strings with at least `keySize` bytes each is
the XOR of their first `keySize` bytes. -/
theorem deriveDiskKey_eq_take (l g : Bytes) (hl : ∀ b ∈ l, b < 256) (hg : ∀ b ∈ g, b < 256)
    (hll : keySize ≤ l.length) (hgl : keySize ≤ g.length) :
    deriveDiskKey l g = .returned (xorBytes (l.take keySize) (g.take keySize)) := by
  have h := deriveDiskKey_loop l g hl hg keySize (Nat.le_refl _) hll hgl
  simpa [deriveDiskKey] using h

/-- The derived key of two keys is their XOR. -/
theorem deriveDiskKey_eq (l g : Bytes) (hl : IsKey l) (hg : IsKey g) :
    deriveDiskKey l g = .returned (xorBytes l g) := by
  have h := deriveDiskKey_eq_take l g hl.2 hg.2 (Nat.le_of_eq hl.1.symm) (Nat.le_of_eq hg.1.symm)
  rw [h, ← hl.1, List.take_length, hl.1, ← hg.1, List.take_length]

/-- The XOR of bytes is made of bytes. -/
theorem xorBytes_lt (a b : Bytes) (ha : ∀ x ∈ a, x < 256) (hb : ∀ x ∈ b, x < 256) :
    ∀ z ∈ xorBytes a b, z < 256 := by
  induction a generalizing b with
  | nil => simp [xorBytes]
  | cons x xs ih =>
    cases b with
    | nil => simp [xorBytes]
    | cons y ys =>
      intro z hz
      simp only [xorBytes, List.zipWith_cons_cons, List.mem_cons] at hz
      rcases hz with rfl | hz
      · exact Nat.xor_lt_two_pow (n := 8) (ha x (List.mem_cons_self _ _))
          (hb y (List.mem_cons_self _ _))
      · exact ih ys (fun w hw => ha w (List.mem_cons_of_mem _ hw))
          (fun w hw => hb w (List.mem_cons_of_mem _ hw)) z hz

/-- The XOR of two keys is a key. -/
theorem xorBytes_isKey (a b : Bytes) (ha : IsKey a) (hb : IsKey b) : IsKey (xorBytes a b) := by
  refine ⟨?_, xorBytes_lt a b ha.2 hb.2⟩
  simp [xorBytes, ha.1, hb.1]

/-- The XOR of byte strings does not depend on the order of the two. -/
theorem xorBytes_comm (a b : Bytes) : xorBytes a b = xorBytes b a := by
  induction a generalizing b with
  | nil => cases b <;> simp [xorBytes]
  | cons x xs ih =>
    cases b with
    | nil => simp [xorBytes]
    | cons y ys =>
      have h := ih ys
      simp only [xorBytes] at h
      simp [xorBytes, Nat.xor_comm x y, h]

/-- The XOR of two byte strings of one length, XORed with the first, is the
second. -/
theorem xorBytes_cancel (a b : Bytes) (h : a.length = b.length) :
    xorBytes (xorBytes a b) a = b := by
  induction a generalizing b with
  | nil =>
    cases b with
    | nil => rfl
    | cons y ys => simp at h
  | cons x xs ih =>
    cases b with
    | nil => simp at h
    | cons y ys =>
      have hlen : xs.length = ys.length := by simpa using h
      have hxy : (x ^^^ y) ^^^ x = y := by
        rw [Nat.xor_comm x y, Nat.xor_assoc, Nat.xor_self, Nat.xor_zero]
      have hrec := ih ys hlen
      simp only [xorBytes] at hrec
      simp [xorBytes, hxy, hrec]

/-- C22: the disk key of two byte strings of at least 32 bytes is the
byte-wise XOR of their first 32 bytes. For 32-byte keys the derived key is a
32-byte key, XORing it with one part gives the other part, and for a fixed
local key the map from the global key to the derived key is one-to-one and
onto the 32-byte keys, and likewise for a fixed global key: every key value
is the derived key for exactly one value of the unknown part. -/
theorem deriveDiskKey_spec (l g : Bytes) (hl : IsKey l) (hg : IsKey g) :
    (∀ a b : Bytes, (∀ x ∈ a, x < 256) → (∀ x ∈ b, x < 256) →
      32 ≤ a.length → 32 ≤ b.length →
      deriveDiskKey a b = .returned (xorBytes (a.take 32) (b.take 32))) ∧
    deriveDiskKey l g = .returned (xorBytes l g) ∧
    IsKey (xorBytes l g) ∧
    deriveDiskKey (xorBytes l g) l = .returned g ∧
    deriveDiskKey (xorBytes l g) g = .returned l ∧
    (∀ g2, IsKey g2 → deriveDiskKey l g2 = deriveDiskKey l g → g2 = g) ∧
    (∀ k, IsKey k → ∃ g2, IsKey g2 ∧ deriveDiskKey l g2 = .returned k) ∧
    (∀ l2, IsKey l2 → deriveDiskKey l2 g = deriveDiskKey l g → l2 = l) ∧
    (∀ k, IsKey k → ∃ l2, IsKey l2 ∧ deriveDiskKey l2 g = .returned k) := by
  have hlg : l.length = g.length := hl.1.trans hg.1.symm
  have hk := xorBytes_isKey l g hl hg
  refine ⟨?_, deriveDiskKey_eq l g hl hg, hk, ?_, ?_, ?_, ?_, ?_, ?_⟩
  · intro a b ha hb hal hbl
    exact deriveDiskKey_eq_take a b ha hb hal hbl
  · rw [deriveDiskKey_eq _ _ hk hl, xorBytes_cancel l g hlg]
  · rw [deriveDiskKey_eq _ _ hk hg, xorBytes_comm l g, xorBytes_cancel g l hlg.symm]
  · intro g2 hg2 h
    rw [deriveDiskKey_eq _ _ hl hg2, deriveDiskKey_eq _ _ hl hg] at h
    have he : xorBytes l g2 = xorBytes l g := by simpa using h
    have h1 := xorBytes_cancel l g2 (hl.1.trans hg2.1.symm)
    rw [he, xorBytes_cancel l g hlg] at h1
    exact h1.symm
  · intro k hkk
    refine ⟨xorBytes l k, xorBytes_isKey l k hl hkk, ?_⟩
    rw [deriveDiskKey_eq _ _ hl (xorBytes_isKey l k hl hkk), xorBytes_comm l (xorBytes l k),
      xorBytes_cancel l k (hl.1.trans hkk.1.symm)]
  · intro l2 hl2 h
    rw [deriveDiskKey_eq _ _ hl2 hg, deriveDiskKey_eq _ _ hl hg] at h
    have he : xorBytes l2 g = xorBytes l g := by simpa using h
    have h1 := xorBytes_cancel g l2 (hg.1.trans hl2.1.symm)
    rw [xorBytes_comm g l2, he, xorBytes_comm l g, xorBytes_cancel g l hlg.symm] at h1
    exact h1.symm
  · intro k hkk
    refine ⟨xorBytes k g, xorBytes_isKey k g hkk hg, ?_⟩
    rw [deriveDiskKey_eq _ _ (xorBytes_isKey k g hkk hg) hg, xorBytes_comm k g,
      xorBytes_cancel g k (hg.1.trans hkk.1.symm)]

/-- Witness for C22: the derived key of the two sample keys, XORed with the
local key, is the global key. -/
theorem deriveDiskKey_spec_witness :
    deriveDiskKey (xorBytes sampleLocalKey sampleGlobalKey) sampleLocalKey
      = .returned sampleGlobalKey :=
  (deriveDiskKey_spec sampleLocalKey sampleGlobalKey (by decide) (by decide)).2.2.2.1

/-! ### Random MAC addresses and the wrapngo constructor -/

set_option maxRecDepth 100000 in
/-- Setting bit 1 and clearing bit 0 of a byte leaves its other six bits. -/
theorem mac_first_octet (b : Fin 256) :
    ((b.val ||| 2) &&& 0xfe) &&& 2 = 2 ∧
    ((b.val ||| 2) &&& 0xfe) &&& 1 = 0 ∧
    ((b.val ||| 2) &&& 0xfe) &&& 0xfc = b.val &&& 0xfc ∧
    ((b.val ||| 2) &&& 0xfe) < 256 := by
  revert b
  decide

/-- C24: for six random bytes, `generateRandomEthernetMAC` returns six bytes
and no error; the first octet has the U/L bit (0x02) set and the I/G bit
(0x01) cleared and its other six bits are those of the first random byte,
and the other five octets are the random bytes. -/
theorem generateRandomEthernetMAC_spec (b0 b1 b2 b3 b4 b5 : Nat) (h0 : b0 < 256) :
    ∃ m0, generateRandomEthernetMAC (.ok [b0, b1, b2, b3, b4, b5])
        = (some [m0, b1, b2, b3, b4, b5], none) ∧
      m0 &&& 2 = 2 ∧ m0 &&& 1 = 0 ∧ m0 &&& 0xfc = b0 &&& 0xfc ∧ m0 < 256 := by
  obtain ⟨h1, h2, h3, h4⟩ := mac_first_octet ⟨b0, h0⟩
  refine ⟨(b0 ||| 2) &&& 0xfe, ?_, h1, h2, h3, h4⟩
  simp only [Fin.val_mk] at h4
  simp [generateRandomEthernetMAC, Nat.mod_eq_of_lt h4]

/-- Witness for C24: the random bytes `f1 22 33 44 55 66`. -/
theorem generateRandomEthernetMAC_spec_witness :
    ∃ m0, generateRandomEthernetMAC (.ok [0xf1, 0x22, 0x33, 0x44, 0x55, 0x66])
        = (some [m0, 0x22, 0x33, 0x44, 0x55, 0x66], none) ∧
      m0 &&& 2 = 2 ∧ m0 &&& 1 = 0 ∧ m0 &&& 0xfc = 0xf1 &&& 0xfc ∧ m0 < 256 :=
  generateRandomEthernetMAC_spec 0xf1 0x22 0x33 0x44 0x55 0x66 (by decide)

/-- C25 as stated fails: for options with a negative `Parallelism`, or with a
negative `APIRate`, `new` does not return a client. -/
theorem new_counterexample :
    new { User := "u", APIKey := "k", BackOff := none, APIRate := 0, Parallelism := -1 }
      = .panicked ∧
    new { User := "u", APIKey := "k", BackOff := none, APIRate := -1, Parallelism := 0 }
      = .panicked := by
  decide

/-- C25, amended: for options whose `APIRate` and `Parallelism` are not
negative, `new` returns a client whose options have `Parallelism` 1 if it was
0 and unchanged otherwise, `APIRate` two seconds if it was 0 and unchanged
otherwise, a `BackOff` factory that is not nil (the given one if there was
one), and unchanged credentials, and whose semaphore capacity is the
resulting `Parallelism`. -/
theorem new_defaults (opts : Opts) (hrate : 0 ≤ opts.APIRate) (hpar : 0 ≤ opts.Parallelism) :
    ∃ c, new opts = .returned c ∧
      c.o.Parallelism = (if opts.Parallelism = 0 then 1 else opts.Parallelism) ∧
      c.o.APIRate = (if opts.APIRate = 0 then 2 * timeSecond else opts.APIRate) ∧
      c.o.BackOff ≠ none ∧
      (∀ f, opts.BackOff = some f → c.o.BackOff = some f) ∧
      c.o.User = opts.User ∧ c.o.APIKey = opts.APIKey ∧
      (c.serializer : Int) = c.o.Parallelism ∧
      c.rlt = c.o.APIRate ∧ c.username = opts.User ∧ c.token = opts.APIKey := by
  obtain ⟨user, key, backoff, rate, par⟩ := opts
  simp only at hrate hpar
  have hpn : ¬ par < 0 := by omega
  have hnat : (par.toNat : Int) = par := Int.toNat_of_nonneg hpar
  by_cases hr : rate = 0
  · by_cases hp : par = 0 <;> cases backoff <;>
      simp [new, hr, hp, timeSecond, hpn, hnat]
  · have hrn : ¬ rate ≤ 0 := by omega
    by_cases hp : par = 0 <;> cases backoff <;>
      simp [new, hr, hp, timeSecond, hpn, hnat, hrn]

/-- Witness for C25: options with every optional field unset. -/
theorem new_defaults_witness :
    ∃ c, new { User := "u", APIKey := "k", BackOff := none, APIRate := 0, Parallelism := 0 }
        = .returned c ∧ c.o.Parallelism = 1 ∧ c.serializer = 1 ∧ c.o.APIRate = 2000000000 := by
  obtain ⟨c, h, hp, hr, -, -, -, -, hs, -⟩ := new_defaults
    { User := "u", APIKey := "k", BackOff := none, APIRate := 0, Parallelism := 0 }
    (by decide) (by decide)
  refine ⟨c, h, by simpa using hp, ?_, by simpa [timeSecond] using hr⟩
  have : (c.serializer : Int) = 1 := by rw [hs]; simpa using hp
  exact_mod_cast this

end Metropolis
